import Mathlib

/-!
# nlp-sql-generator: the dashboard and login page controllers

A shallow embedding of `static/js/dashboard.js` (namespace `Dashboard`) and of
`static/js/login.js` (namespace `Login`).

* JavaScript strings are Lean `String`s.  The characters the code inspects
  (comma, double quote, line feed, space) are all single UTF-16 code units, so
  working with Unicode scalar values instead of code units changes nothing.
* A handler is a function on an explicit page state (`Page`): browser storage,
  the module-level variables, the parts of the DOM the handlers write, and a
  trace of the observable steps (requests, navigations, notifications).
* Every `await fetch(...)` takes its outcome from a `Reply` argument, so a
  statement quantified over the replies speaks about every server behaviour.
  A handler is run from start to end without another handler interleaving.
-/

namespace Dashboard

/-! ## JavaScript values -/

/-- A JavaScript value as it occurs in a cell of a result row.  Numbers and
non-primitive values are carried with the text `String(v)` gives for them (this
conversion is the runtime's, not the repository's). -/
inductive JSValue where
  | null
  | undefined
  | bool (b : Bool)
  | str (s : String)
  | num (text : String)
  | object (text : String)
  deriving DecidableEq, Repr

/-- The runtime conversion `String(v)`. -/
def jsString : JSValue → String
  | JSValue.null => "null"
  | JSValue.undefined => "undefined"
  | JSValue.bool true => "true"
  | JSValue.bool false => "false"
  | JSValue.str s => s
  | JSValue.num text => text
  | JSValue.object text => text

/-- The text a node holds after `node.textContent = v`: `textContent` is a
nullable DOMString, so `null` and `undefined` both give the empty text and every
other value is converted with `String`. -/
def textContentOf : JSValue → String
  | JSValue.null => ""
  | JSValue.undefined => ""
  | v => jsString v

/-- A row object, seen through property access: `row col` is `row[col]`.  A
property the object does not have reads as `undefined`. -/
abbrev Row := String → JSValue

/-- Single-character search: `s.includes(c)`. -/
def includes (s : String) (c : Char) : Bool :=
  s.data.contains c

/-- Global replacement of the double quote: `s.replace(/"/g, '""')`, on the
character list. -/
def replaceQuotes : List Char → List Char
  | [] => []
  | c :: cs => if c = '"' then '"' :: '"' :: replaceQuotes cs else c :: replaceQuotes cs

/-- Joining of an array of strings: `xs.join(sep)`. -/
def join (xs : List String) (sep : String) : String :=
  String.intercalate sep xs

/-! ## CSV export (`exportToCSV`, lines 512-552) -/

/-- The callback of `columns.map` in `exportToCSV` (lines 525-534), applied to
the value `row[col]`. -/
def csvField (value : JSValue) : String :=
  if value = JSValue.null then ""
  else
    let strValue := jsString value
    if includes strValue ',' || includes strValue '"' || includes strValue '\n' then
      "\"" ++ String.mk (replaceQuotes strValue.data) ++ "\""
    else strValue

/-- The CSV text of `exportToCSV` (lines 518-536): the header line, then one line
appended per row by the `forEach`. -/
def csvText (columns : List String) (data : List Row) : String :=
  data.foldl
    (fun csv row => csv ++ (join (columns.map (fun col => csvField (row col))) "," ++ "\n"))
    (join columns "," ++ "\n")

/-! ## Result table (`displayResultTable`, lines 467-498) -/

/-- The rendered `#resultsTable`: the text of the header cells, and for every
body row the text of its cells. -/
structure Table where
  header : List String
  body : List (List String)
  deriving DecidableEq, Repr

/-- The text of one body cell (line 491):
`td.textContent = row[column] !== null ? row[column] : 'NULL'`. -/
def cellText (value : JSValue) : String :=
  if value ≠ JSValue.null then textContentOf value else "NULL"

/-- The table built by `displayResultTable(columns, data)`: both `forEach` loops
append one child per element to an initially empty parent. -/
def displayResultTable (columns : List String) (data : List Row) : Table :=
  { header := columns.foldl (fun headerRow column => headerRow ++ [column]) [],
    body := data.foldl
      (fun tbody row =>
        tbody ++ [columns.foldl (fun tr column => tr ++ [cellText (row column)]) []])
      [] }

/-! ## Browser state -/

/-- A Web Storage area: the key/value pairs it holds. -/
abbrev Storage := List (String × String)

/-- Lookup `storage.getItem(key)`; `none` is `null`. -/
def Storage.getItem (s : Storage) (key : String) : Option String :=
  (s.find? (fun kv => kv.1 = key)).map (fun kv => kv.2)

/-- Removal `storage.removeItem(key)`. -/
def Storage.removeItem (s : Storage) (key : String) : Storage :=
  s.filter (fun kv => kv.1 ≠ key)

/-- Emptying `storage.clear()`. -/
def Storage.clear (_s : Storage) : Storage := []

/-- An observable step of a handler. -/
inductive Effect where
  /-- Call of `fetch` on `path` (below `API_BASE_URL`) with the bearer `token`; `args` are
  the query parameters or the fields of the JSON body. -/
  | fetch (method path token : String) (args : List (String × String))
  /-- Call `window.location.replace(url)`. -/
  | locationReplace (url : String)
  /-- Call `showToast(message, type)`. -/
  | toast (message type : String)
  /-- Call `console.error(message, error)`. -/
  | consoleError (message : String)
  /-- Entry into `displayResults`. -/
  | displayResults
  /-- Call `element.scrollIntoView(...)`. -/
  | scrollIntoView (id : String)
  /-- Call `clearInterval(sessionCheckInterval)`. -/
  | clearInterval (handle : Nat)
  /-- Click on the temporary download link. -/
  | download (fileName content : String)
  deriving DecidableEq, Repr

/-- The outcome of one `await fetch(...)` followed by `await response.json()`:
the promise rejects (`failure`), or a response arrives with a status and a body
that parses as JSON into `β` (`some`) or does not (`none`). -/
inductive Reply (β : Type) where
  | failure
  | response (status : Nat) (json : Option β)

/-- Flag `response.ok`: the status is in the range 200-299. -/
def ok (status : Nat) : Bool :=
  decide (200 ≤ status) && decide (status ≤ 299)

/-- The JSON object of the execute endpoint, which `displayResults` stores in
`queryResults`.  `data` is `none` when the object has no `data` list. -/
structure ExecutePayload where
  success : Bool
  error : Option String
  sql_query : String
  explanation : Option String
  columns : List String
  data : Option (List Row)
  row_count : JSValue
  execution_time : JSValue

/-- One table of the schema payload. -/
structure TableInfo where
  name : String
  description : String
  columns : List String
  deriving DecidableEq, Repr

/-- The JSON object of the schema endpoint. -/
structure SchemaPayload where
  success : Bool
  tables : List TableInfo

/-- The JSON object of the statistics endpoint; a count is carried with the text
`count.toLocaleString()` gives for it. -/
structure StatsPayload where
  success : Bool
  stats : List (String × String)

/-- One entry of the history payload. -/
structure HistoryItem where
  natural_language : String
  sql : String
  row_count : String
  execution_time : String
  created_at : String
  deriving DecidableEq, Repr

/-- The JSON object of the history endpoint. -/
structure HistoryPayload where
  success : Bool
  history : List HistoryItem

/-- The state the dashboard handlers read and write. -/
structure Page where
  localStorage : Storage
  sessionStorage : Storage
  /-- Variable `currentDatabase`; `none` is `null`. -/
  currentDatabase : Option String
  /-- Variable `queryResults`; `none` is `null`. -/
  queryResults : Option ExecutePayload
  /-- Variable `sessionCheckInterval`; `none` is `null`. -/
  sessionCheckInterval : Option Nat
  /-- Value of `#queryInput`. -/
  queryInput : String
  /-- Property `disabled` of `#generateBtn`. -/
  generateBtnDisabled : Bool
  /-- Whether `#generateBtn` carries the class `loading`. -/
  generateBtnLoading : Bool
  /-- Property `style.display` of the element with the given id. -/
  display : String → String
  /-- Text of the buttons inside `#exampleButtons`. -/
  exampleButtons : List String
  /-- Tables rendered inside `#schemaInfo`. -/
  schemaInfo : List TableInfo
  /-- Items rendered inside `#databaseStats`. -/
  databaseStats : List (String × String)
  /-- Items rendered inside `#queryHistory`. -/
  queryHistory : List HistoryItem
  /-- Text of `#sqlQuery`. -/
  sqlQuery : String
  /-- Text of `#sqlExplanation`. -/
  sqlExplanation : String
  /-- Text of `#resultStats`. -/
  resultStats : String
  /-- Content of `#resultsTable`. -/
  resultsTable : Table
  /-- Observable steps taken so far, oldest first. -/
  trace : List Effect

/-- How a function body ends: normally, or by an uncaught exception; either way
with the page state reached. -/
inductive Completion where
  | normal (p : Page)
  | thrown (p : Page) (error : String)

/-- The page state a completion ends in. -/
def Completion.page : Completion → Page
  | Completion.normal p => p
  | Completion.thrown p _ => p

/-- Whether a completion is an uncaught exception. -/
def Completion.threw : Completion → Bool
  | Completion.normal _ => false
  | Completion.thrown _ _ => true

/-- Append one step to the trace. -/
def Page.emit (p : Page) (e : Effect) : Page :=
  { p with trace := p.trace ++ [e] }

/-- Assignment `document.getElementById(id).style.display = value`. -/
def Page.setDisplay (p : Page) (id value : String) : Page :=
  { p with display := fun i => if i = id then value else p.display i }

/-- The steps a handler added when it took the page from `before` to `after`. -/
def newEffects (before after : Page) : List Effect :=
  after.trace.drop before.trace.length

/-- Function `showToast(message, type)` (lines 641-674), as the notification it shows. -/
def showToast (message type : String) (p : Page) : Page :=
  p.emit (Effect.toast message type)

/-- JavaScript truthiness of a value that is `null` or a string: the non-empty
string, if there is one. -/
def truthy : Option String → Option String
  | some s => if s = "" then none else some s
  | none => none

/-! ## Session guard (lines 34-76) -/

/-- Function `redirectToLogin()` (lines 74-76). -/
def redirectToLogin (p : Page) : Page :=
  p.emit (Effect.locationReplace "/login")

/-- Function `clearSessionAndRedirect()` (lines 66-71). -/
def clearSessionAndRedirect (p : Page) : Page :=
  redirectToLogin
    { p with
      localStorage := (p.localStorage.removeItem "access_token").removeItem "refresh_token",
      sessionStorage := p.sessionStorage.clear }

/-- Function `validateSession()` (lines 34-63): the value it resolves to and the page it
leaves, given the outcome of the request to the validation endpoint. -/
def validateSession (reply : Reply Unit) (p : Page) : Bool × Page :=
  match truthy (p.localStorage.getItem "access_token") with
  | none => (false, redirectToLogin p)
  | some token =>
    let p1 := p.emit (Effect.fetch "GET" "/auth/validate/" token [])
    match reply with
    | Reply.failure =>
      (false, clearSessionAndRedirect (p1.emit (Effect.consoleError "Session validation error:")))
    | Reply.response status _ =>
      if !ok status then
        if status = 401 then (false, clearSessionAndRedirect p1)
        else (true, p1)
      else (true, p1)

/-! ## Panels of the selected database (lines 227-363, 554-616) -/

/-- Function `displaySchema(schema)` (lines 263-291): one block per table, its
columns as list items with the bullet text of line 284 in front. -/
def displaySchema (tables : List TableInfo) (p : Page) : Page :=
  { p with
    schemaInfo := tables.map
      (fun t => { t with columns := t.columns.map (fun column => "â€¢ " ++ column) }) }

/-- Function `loadDatabaseSchema(database)` (lines 228-260). -/
def loadDatabaseSchema (database : String) (reply : Reply SchemaPayload) (p : Page) : Page :=
  match truthy (p.localStorage.getItem "access_token") with
  | none => clearSessionAndRedirect p
  | some token =>
    let p1 := p.emit (Effect.fetch "GET" "/query/schema/" token [("database", database)])
    let caught := fun (q : Page) =>
      showToast "Failed to load database schema" "error"
        (q.emit (Effect.consoleError "Error loading schema:"))
    match reply with
    | Reply.failure => caught p1
    | Reply.response status json =>
      if !ok status then
        if status = 401 then clearSessionAndRedirect p1
        else caught p1
      else
        match json with
        | none => caught p1
        | some data =>
          if data.success then (displaySchema data.tables p1).setDisplay "schemaSection" "block"
          else p1

/-- Function `displayStats(stats)` (lines 329-342): one item per table, the name
and the count followed by the word rows. -/
def displayStats (stats : List (String × String)) (p : Page) : Page :=
  { p with databaseStats := stats.map (fun tc => (tc.1, tc.2 ++ " rows")) }

/-- Function `loadDatabaseStats(database)` (lines 294-326). -/
def loadDatabaseStats (database : String) (reply : Reply StatsPayload) (p : Page) : Page :=
  match truthy (p.localStorage.getItem "access_token") with
  | none => clearSessionAndRedirect p
  | some token =>
    let p1 := p.emit (Effect.fetch "GET" "/query/stats/" token [("database", database)])
    let caught := fun (q : Page) =>
      showToast "Failed to load database statistics" "error"
        (q.emit (Effect.consoleError "Error loading stats:"))
    match reply with
    | Reply.failure => caught p1
    | Reply.response status json =>
      if !ok status then
        if status = 401 then clearSessionAndRedirect p1
        else caught p1
      else
        match json with
        | none => caught p1
        | some data =>
          if data.success then (displayStats data.stats p1).setDisplay "statsSection" "block"
          else p1

/-- What reading a property of an object literal gives: an array the literal
defines under that key, a value inherited from `Object.prototype` (a function, or
for `__proto__` the prototype object), or `undefined`. -/
inductive Property where
  | array (items : List String)
  | inherited
  | undefined
  deriving DecidableEq, Repr

/-- The names every object literal inherits from `Object.prototype`. -/
def objectPrototypeKeys : List String :=
  ["constructor", "hasOwnProperty", "isPrototypeOf", "propertyIsEnumerable",
   "toLocaleString", "toString", "valueOf", "__proto__",
   "__defineGetter__", "__defineSetter__", "__lookupGetter__", "__lookupSetter__"]

/-- The read `exampleQueries[database]` of the constant of lines 9-31. -/
def exampleQueries (database : String) : Property :=
  if database = "E-Commerce" then
    Property.array
      ["Show me the top 5 customers by total order amount",
       "Find all products with stock less than 10",
       "Get all orders from the last 30 days",
       "Which product categories have the highest revenue?",
       "List all cancelled orders with their customer details"]
  else if database = "Hospital Management" then
    Property.array
      ["Show all appointments scheduled for tomorrow",
       "Find all patients with blood type O+",
       "List the top 10 doctors by number of appointments",
       "Get all prescriptions for patient ID 5",
       "Show departments with their head doctors"]
  else if database = "School Management" then
    Property.array
      ["Show all students in grade 10",
       "Find the average grade for each course",
       "List all students enrolled in Computer Science courses",
       "Show teachers and their course load",
       "Get the top 10 students by average grade"]
  else if database ∈ objectPrototypeKeys then Property.inherited
  else Property.undefined

/-- Function `showExampleQueries(database)` (lines 345-363).  In
`exampleQueries[database] || []` an array is truthy, also when empty, and so is
an inherited value, which has no `forEach`: calling it throws a `TypeError`
after the buttons were removed and before the section is shown. -/
def showExampleQueries (database : String) (p : Page) : Completion :=
  let p1 := { p with exampleButtons := [] }
  match exampleQueries database with
  | Property.inherited => Completion.thrown p1 "TypeError: queries.forEach is not a function"
  | found =>
    let queries := match found with
      | Property.array items => items
      | _ => []
    Completion.normal
      ((queries.foldl
          (fun (q : Page) query => { q with exampleButtons := q.exampleButtons ++ [query] })
          p1).setDisplay "exampleQueries" "block")

/-- Function `displayQueryHistory(history)` (lines 591-616): one item per entry,
in the order given. -/
def displayQueryHistory (history : List HistoryItem) (p : Page) : Page :=
  { p with queryHistory := history }

/-- Function `loadQueryHistory(database)` (lines 555-588). -/
def loadQueryHistory (database : String) (reply : Reply HistoryPayload) (p : Page) : Page :=
  match truthy (p.localStorage.getItem "access_token") with
  | none => clearSessionAndRedirect p
  | some token =>
    let p1 := p.emit
      (Effect.fetch "GET" "/query/history/" token [("database", database), ("limit", "5")])
    let caught := fun (q : Page) => q.emit (Effect.consoleError "Error loading history:")
    match reply with
    | Reply.failure => caught p1
    | Reply.response status json =>
      if !ok status then
        if status = 401 then clearSessionAndRedirect p1
        else caught p1
      else
        match json with
        | none => caught p1
        | some data =>
          if data.success && decide (data.history.length > 0) then
            (displayQueryHistory data.history p1).setDisplay "historySection" "block"
          else p1.setDisplay "historySection" "none"

/-- The outcomes of the requests one handler run may make. -/
structure Network where
  validate : Reply Unit
  schema : Reply SchemaPayload
  stats : Reply StatsPayload
  history : Reply HistoryPayload
  execute : Reply ExecutePayload

/-- Function `handleDatabaseChange(event)` (lines 197-225); `value` is
`event.target.value`. -/
def handleDatabaseChange (value : String) (net : Network) (p : Page) : Completion :=
  let (isValid, p1) := validateSession net.validate p
  if !isValid then Completion.normal p1
  else
    let p2 := { p1 with currentDatabase := some value }
    if (truthy p2.currentDatabase).isNone then
      Completion.normal
        { (((p2.setDisplay "schemaSection" "none").setDisplay "statsSection" "none").setDisplay
            "exampleQueries" "none") with generateBtnDisabled := true }
    else
      let p3 := { p2 with generateBtnDisabled := false }
      let p4 := loadDatabaseSchema value net.schema p3
      let p5 := loadDatabaseStats value net.stats p4
      match showExampleQueries value p5 with
      | Completion.thrown q error => Completion.thrown q error
      | Completion.normal p6 => Completion.normal (loadQueryHistory value net.history p6)

/-! ## Query execution (lines 366-464) -/

/-- The characters `String.prototype.trim` strips: the white space and line
terminator code points of ECMAScript. -/
def isTrimChar (c : Char) : Bool :=
  let n := c.toNat
  n = 0x09 || n = 0x0A || n = 0x0B || n = 0x0C || n = 0x0D || n = 0x20 || n = 0xA0 ||
  n = 0x1680 || (decide (0x2000 ≤ n) && decide (n ≤ 0x200A)) || n = 0x2028 || n = 0x2029 ||
  n = 0x202F || n = 0x205F || n = 0x3000 || n = 0xFEFF

/-- The method `s.trim()`. -/
def jsTrim (s : String) : String :=
  String.mk ((s.data.dropWhile isTrimChar).reverse.dropWhile isTrimChar).reverse

/-- Function `displayResults(data)` (lines 432-464).  When `data.data` is not a
list, `data.forEach` in `displayResultTable` throws after the header was built. -/
def displayResults (data : ExecutePayload) (p : Page) : Completion :=
  let p1 := { p.emit Effect.displayResults with queryResults := some data }
  let p2 := p1.setDisplay "resultsSection" "block"
  let p3 := { p2 with sqlQuery := data.sql_query }
  let p4 := match truthy data.explanation with
    | some explanation =>
      { p3 with sqlExplanation := "ðŸ’¡ " ++ explanation }.setDisplay "sqlExplanation" "block"
    | none => p3.setDisplay "sqlExplanation" "none"
  let p5 := { p4 with
    resultStats := jsString data.row_count ++ " rows â€¢ " ++ jsString data.execution_time ++ "s" }
  match data.data with
  | none =>
    Completion.thrown { p5 with resultsTable := displayResultTable data.columns [] }
      "TypeError: data.forEach is not a function"
  | some rows =>
    Completion.normal
      ({ p5 with resultsTable := displayResultTable data.columns rows }.emit
        (Effect.scrollIntoView "resultsSection"))

/-- Function `generateAndExecuteSQL()` (lines 366-429). -/
def generateAndExecuteSQL (net : Network) (p : Page) : Page :=
  let (isValid, p1) := validateSession net.validate p
  if !isValid then p1
  else
    let query := jsTrim p1.queryInput
    if query = "" then showToast "Please enter a query" "warning" p1
    else
      match truthy p1.currentDatabase with
      | none => showToast "Please select a database" "warning" p1
      | some currentDatabase =>
        let p2 := { p1 with generateBtnLoading := true, generateBtnDisabled := true }
        let caught := fun (q : Page) =>
          showToast "Failed to execute query" "error"
            (q.emit (Effect.consoleError "Error executing query:"))
        let p3 :=
          match truthy (p2.localStorage.getItem "access_token") with
          | none => clearSessionAndRedirect p2
          | some token =>
            let p21 := p2.emit
              (Effect.fetch "POST" "/query/execute/" token
                [("query", query), ("database", currentDatabase)])
            match net.execute with
            | Reply.failure => caught p21
            | Reply.response status json =>
              if !ok status && decide (status = 401) then clearSessionAndRedirect p21
              else
                match json with
                | none => caught p21
                | some data =>
                  if data.success then
                    match displayResults data p21 with
                    | Completion.normal q => showToast "Query executed successfully!" "success" q
                    | Completion.thrown q _ => caught q
                  else
                    showToast ((truthy data.error).getD "Failed to execute query") "error" p21
        { p3 with generateBtnLoading := false, generateBtnDisabled := false }

/-! ## CSV export, the handler -/

/-- The replacement `s.replace(' ', '_')`: a string pattern replaces the first
occurrence only. -/
def replaceFirstSpace : List Char → List Char
  | [] => []
  | c :: cs => if c = ' ' then '_' :: cs else c :: replaceFirstSpace cs

/-- Function `exportToCSV()` (lines 512-552).  `toLowerCase` is the runtime's
`String.prototype.toLowerCase` and `now` the value of `Date.now()`.  With
`currentDatabase` equal to `null` the call `currentDatabase.toLowerCase()` throws. -/
def exportToCSV (toLowerCase : String → String) (now : Nat) (p : Page) : Completion :=
  let noData := Completion.normal (showToast "No data to export" "warning" p)
  match p.queryResults with
  | none => noData
  | some queryResults =>
    match queryResults.data with
    | none => noData
    | some data =>
      if data.length = 0 then noData
      else
        let csv := csvText queryResults.columns data
        match p.currentDatabase with
        | none => Completion.thrown p "TypeError: currentDatabase is null"
        | some currentDatabase =>
          let fileName := "query_results_" ++
            String.mk (replaceFirstSpace (toLowerCase currentDatabase).data) ++ "_" ++
            toString now ++ ".csv"
          Completion.normal
            (showToast "Results exported successfully!" "success"
              (p.emit (Effect.download fileName csv)))

/-! ## Logout (lines 677-709) -/

/-- JavaScript truthiness of a timer handle that is `null` or a number: the
non-zero number, if there is one. -/
def truthyHandle : Option Nat → Option Nat
  | some handle => if handle = 0 then none else some handle
  | none => none

/-- Function `logout()` (lines 677-709), given the outcome of the request to the
logout endpoint.  The `catch` only logs; the `finally` block runs on every
path.  A refresh token that is `null` is sent as the text `null`. -/
def logout (reply : Reply Unit) (p : Page) : Page :=
  let tried :=
    match truthy (p.localStorage.getItem "access_token") with
    | none => p
    | some token =>
      let p1 := p.emit
        (Effect.fetch "POST" "/auth/logout/" token
          [("refresh", (p.localStorage.getItem "refresh_token").getD "null")])
      match reply with
      | Reply.failure => p1.emit (Effect.consoleError "Error during logout:")
      | Reply.response _ _ => p1
  let cleared :=
    { tried with
      localStorage := tried.localStorage.clear,
      sessionStorage := tried.sessionStorage.clear }
  let stopped :=
    match truthyHandle cleared.sessionCheckInterval with
    | some handle => cleared.emit (Effect.clearInterval handle)
    | none => cleared
  stopped.emit (Effect.locationReplace "/login")

/-! ## Time ago (lines 619-638) -/

/-- Lines 622-637 of `getTimeAgo`, on the whole number `seconds`.  Each
`interval` is the exact quotient of `seconds` by a whole number, so
`interval > 1` says that `seconds` exceeds the divisor and `Math.floor(interval)`
is the floor of the quotient (for every time span a `Date` can hold the
floating-point quotient has the same floor). -/
def timeAgoOfSeconds (seconds : Int) : String :=
  if seconds > 31536000 then toString (seconds / 31536000) ++ " years ago"
  else if seconds > 2592000 then toString (seconds / 2592000) ++ " months ago"
  else if seconds > 86400 then toString (seconds / 86400) ++ " days ago"
  else if seconds > 3600 then toString (seconds / 3600) ++ " hours ago"
  else if seconds > 60 then toString (seconds / 60) ++ " minutes ago"
  else toString seconds ++ " seconds ago"

/-- Function `getTimeAgo(date)` (lines 619-638); `now` is the time value of
`new Date()` and `date` the time value of the argument, both in milliseconds. -/
def getTimeAgo (now date : Int) : String :=
  let seconds := (now - date) / 1000
  timeAgoOfSeconds seconds

/-! ## Reference notions the statements compare the code with -/

/-- The text that replaces one character when every double quote is doubled. -/
def doubled (c : Char) : List Char :=
  if c = '"' then ['"', '"'] else [c]

/-- Whether a string contains a comma, a double quote or a line feed. -/
abbrev hasCommaQuoteOrNewline (s : String) : Prop :=
  ',' ∈ s.data ∨ '"' ∈ s.data ∨ '\n' ∈ s.data

/-- The characters RFC 4180 keeps out of a non-escaped field: COMMA, DQUOTE, CR
and LF (its `TEXTDATA` excludes them; inside an escaped field all four may
occur, the double quote written twice). -/
def rfc4180Special (c : Char) : Bool :=
  c = ',' || c = '"' || c = '\r' || c = '\n'

/-- Reference reader, the inside of an escaped field after its opening quote:
`2DQUOTE` reads as one double quote, a single double quote closes the field and
must be the last character, every other character stands for itself. -/
def rfc4180ReadEscaped : List Char → Option (List Char)
  | [] => none
  | [c] => if c = '"' then some [] else none
  | c :: d :: rest =>
    if c = '"' then
      if d = '"' then (rfc4180ReadEscaped rest).map (fun value => '"' :: value) else none
    else (rfc4180ReadEscaped (d :: rest)).map (fun value => c :: value)

/-- Reference reader of RFC 4180 (`field = (escaped / non-escaped)`) applied to
the text of one field: the value it reads, or `none` when the text is not one
field.  `TEXTDATA` is taken as every character that is not special, so that
text outside ASCII is read too. -/
def rfc4180ReadField (text : String) : Option String :=
  match text.data with
  | [] => some ""
  | c :: rest =>
    if c = '"' then (rfc4180ReadEscaped rest).map String.mk
    else if (c :: rest).all (fun x => !rfc4180Special x) then some text
    else none

/-- Whether a step is a request to the execute endpoint. -/
def isExecuteRequest : Effect → Bool
  | Effect.fetch _ path _ _ => path = "/query/execute/"
  | _ => false

/-- Whether a step is an HTTP request. -/
def isRequest : Effect → Bool
  | Effect.fetch _ _ _ _ => true
  | _ => false

/-! ## Concrete states used to evaluate the handlers -/

/-- A freshly loaded dashboard of a signed-in user: both tokens stored, one
session-scoped entry, nothing selected, every panel shown as `block`. -/
def signedInPage : Page :=
  { localStorage := [("access_token", "A"), ("refresh_token", "R")],
    sessionStorage := [("tab", "1")],
    currentDatabase := none,
    queryResults := none,
    sessionCheckInterval := some 1,
    queryInput := "",
    generateBtnDisabled := false,
    generateBtnLoading := false,
    display := fun _ => "block",
    exampleButtons := [],
    schemaInfo := [],
    databaseStats := [],
    queryHistory := [],
    sqlQuery := "",
    sqlExplanation := "",
    resultStats := "",
    resultsTable := { header := [], body := [] },
    trace := [] }

/-- The signed-in dashboard without its access token. -/
def signedOutPage : Page :=
  { signedInPage with localStorage := [("remembered_username", "u@example.com")] }

/-- The row `{id: 1, name: "O'Brien, J."}`. -/
def obrienRow : Row := fun col =>
  if col = "id" then JSValue.num "1"
  else if col = "name" then JSValue.str "O'Brien, J."
  else JSValue.undefined

/-- The row `{id: 7, name: null}`. -/
def nullNameRow : Row := fun col =>
  if col = "id" then JSValue.num "7"
  else if col = "name" then JSValue.null
  else JSValue.undefined

/-- A successful payload of the execute endpoint with one row. -/
def obrienPayload : ExecutePayload :=
  { success := true,
    error := none,
    sql_query := "SELECT id, name FROM customers",
    explanation := none,
    columns := ["id", "name"],
    data := some [obrienRow],
    row_count := JSValue.num "1",
    execution_time := JSValue.num "0.01" }

/-- The signed-in dashboard after a query on the database E-Commerce returned
the row of `obrienRow`. -/
def exportPage : Page :=
  { signedInPage with
    currentDatabase := some "E-Commerce",
    queryResults := some obrienPayload }

/-- The signed-in dashboard with the database E-Commerce selected and a
question typed. -/
def askPage : Page :=
  { signedInPage with
    currentDatabase := some "E-Commerce",
    queryInput := " top 5 customers " }

/-- The signed-in dashboard with the database E-Commerce selected and only
blanks typed as the question. -/
def blankQuestionPage : Page :=
  { signedInPage with
    currentDatabase := some "E-Commerce",
    queryInput := "   " }

/-- The units the time-ago text is given in, largest first: the length in
seconds and the words that follow the number. -/
def timeUnits : List (Int × String) :=
  [(31536000, " years ago"), (2592000, " months ago"), (86400, " days ago"),
   (3600, " hours ago"), (60, " minutes ago")]

/-- Lower-casing of the letters A to Z, with which `toLowerCase` agrees on
ASCII text. -/
def asciiLowerCase (s : String) : String :=
  String.mk (s.data.map Char.toLower)

/-- The invariant that links the two module variables: a stored result comes
with a database name that is not `null`. -/
def resultHasDatabase (p : Page) : Prop :=
  p.queryResults.isSome = true → p.currentDatabase.isSome = true

/-- The export page with a remembered user name next to the tokens. -/
def rememberedPage : Page :=
  { exportPage with
    localStorage :=
      [("rememberedUsername", "u@example.com"), ("access_token", "A"), ("refresh_token", "R")] }

/-- The export page for a database whose name has two spaces. -/
def twoSpacesPage : Page :=
  { exportPage with currentDatabase := some "My Big DB" }

/-- A network on which every endpoint answers 200 with a successful payload. -/
def okNetwork : Network :=
  { validate := Reply.response 200 none,
    schema := Reply.response 200 (some { success := true, tables := [] }),
    stats := Reply.response 200 (some { success := true, stats := [] }),
    history := Reply.response 200 (some { success := true, history := [] }),
    execute := Reply.response 200 (some obrienPayload) }

end Dashboard

namespace Login

/-! ## Login page state -/

/-- An observable step of the login page. -/
inductive Effect where
  /-- Call of `fetch` on `path` (below `API_BASE_URL`), without credentials;
  `args` are the fields of the JSON body. -/
  | fetch (method path : String) (args : List (String × String))
  /-- Call `showAlert(message, type)`. -/
  | alert (message type : String)
  /-- Call `console.error(message, error)`. -/
  | consoleError (message : String)
  /-- Timer that assigns `url` to `window.location.href` after `delay`
  milliseconds. -/
  | navigateLater (url : String) (delay : Nat)
  deriving DecidableEq, Repr

/-- The JSON object of the login endpoint. -/
structure LoginPayload where
  success : Bool
  access : String
  refresh : String
  message : Option String
  deriving DecidableEq, Repr

/-- The state the login handlers read and write. -/
structure Page where
  localStorage : Dashboard.Storage
  /-- Value of `#username`. -/
  usernameInput : String
  /-- Value of `#password`. -/
  passwordInput : String
  /-- Property `checked` of `#rememberMe`. -/
  rememberMe : Bool
  /-- Text of `#usernameError`. -/
  usernameError : String
  /-- Whether `#usernameError` carries the class `show`. -/
  usernameErrorShown : Bool
  /-- Text of `#passwordError`. -/
  passwordError : String
  /-- Whether `#passwordError` carries the class `show`. -/
  passwordErrorShown : Bool
  /-- Whether the button is in the loading state of `setLoadingState`. -/
  loading : Bool
  /-- Observable steps taken so far, oldest first. -/
  trace : List Effect
  deriving DecidableEq, Repr

/-- Append one step to the trace. -/
def Page.emit (p : Page) (e : Effect) : Page :=
  { p with trace := p.trace ++ [e] }

/-- The steps a handler added when it took the page from `before` to `after`. -/
def newEffects (before after : Page) : List Effect :=
  after.trace.drop before.trace.length

/-- Assignment `storage.setItem(key, value)`: the value of an existing key is
replaced in place, a new key is added at the end. -/
def setItem (s : Dashboard.Storage) (key value : String) : Dashboard.Storage :=
  if s.any (fun kv => kv.1 = key) then
    s.map (fun kv => if kv.1 = key then (key, value) else kv)
  else s ++ [(key, value)]

/-- The property `s.length`: the number of UTF-16 code units, two for a
character outside the basic plane. -/
def jsLength (s : String) : Nat :=
  (s.data.map (fun c => if c.toNat ≥ 0x10000 then 2 else 1)).sum

/-! ## Email pattern (lines 146-149) -/

/-- One item of an anchored pattern: a character class, or a character class
under `+`. -/
inductive Item where
  | one (cls : Char → Bool)
  | many1 (cls : Char → Bool)

/-- Backtracking match of a pattern `^ items $` against the whole text: a class
takes one character, a class under `+` takes one character and then either
goes on taking or hands over to the rest of the pattern. -/
def matchItems : List Item → List Char → Bool
  | [], [] => true
  | [], _ :: _ => false
  | _ :: _, [] => false
  | Item.one cls :: rest, c :: cs => cls c && matchItems rest cs
  | Item.many1 cls :: rest, c :: cs =>
    cls c && (matchItems (Item.many1 cls :: rest) cs || matchItems rest cs)

/-- The class `[^\s@]`: the class `\s` holds the white space and line
terminator code points, the ones `trim` strips. -/
def notSpaceOrAt (c : Char) : Bool :=
  !Dashboard.isTrimChar c && c ≠ '@'

/-- The pattern `emailRegex` of line 147: `^[^\s@]+@[^\s@]+\.[^\s@]+$`. -/
def emailRegex : List Item :=
  [Item.many1 notSpaceOrAt, Item.one (fun c => c = '@'), Item.many1 notSpaceOrAt,
   Item.one (fun c => c = '.'), Item.many1 notSpaceOrAt]

/-- Function `isValidEmail(email)` (lines 146-149). -/
def isValidEmail (email : String) : Bool :=
  matchItems emailRegex email.data

/-! ## Form submission (lines 60-180) -/

/-- Function `showError(elementId, message)` (lines 152-156), for the two error
elements of the form. -/
def showError (elementId message : String) (p : Page) : Page :=
  if elementId = "usernameError" then
    { p with usernameError := message, usernameErrorShown := true }
  else if elementId = "passwordError" then
    { p with passwordError := message, passwordErrorShown := true }
  else p

/-- Function `clearErrors()` (lines 159-165). -/
def clearErrors (p : Page) : Page :=
  { p with
    usernameError := "", usernameErrorShown := false,
    passwordError := "", passwordErrorShown := false }

/-- Function `setLoadingState(isLoading)` (lines 168-180). -/
def setLoadingState (isLoading : Bool) (p : Page) : Page :=
  { p with loading := isLoading }

/-- Function `showAlert(message, type)` (lines 183-211), as the alert it shows. -/
def showAlert (message type : String) (p : Page) : Page :=
  p.emit (Effect.alert message type)

/-- Function `validateInputs(username, password)` (lines 123-143): the value it
returns and the page with the field errors it shows. -/
def validateInputs (username password : String) (p : Page) : Bool × Page :=
  let (isValid1, p1) :=
    if username = "" then (false, showError "usernameError" "Email is required" p)
    else if !isValidEmail username then
      (false, showError "usernameError" "Please enter a valid email address" p)
    else (true, p)
  let (isValid2, p2) :=
    if password = "" then (false, showError "passwordError" "Password is required" p1)
    else if jsLength password < 6 then
      (false, showError "passwordError" "Password must be at least 6 characters" p1)
    else (isValid1, p1)
  (isValid2, p2)

/-- The `submit` listener of the login form (lines 60-120), given the outcome of
the request to the login endpoint. -/
def submit (reply : Dashboard.Reply LoginPayload) (p : Page) : Page :=
  let p1 := clearErrors p
  let username := Dashboard.jsTrim p1.usernameInput
  let password := p1.passwordInput
  let (isValid, p2) := validateInputs username password p1
  if !isValid then p2
  else
    let p3 := setLoadingState true p2
    let p4 := p3.emit
      (Effect.fetch "POST" "/auth/login/" [("email", username), ("password", password)])
    let caught := fun (q : Page) =>
      setLoadingState false
        (showAlert "An error occurred. Please try again." "error"
          (q.emit (Effect.consoleError "Login error:")))
    match reply with
    | Dashboard.Reply.failure => caught p4
    | Dashboard.Reply.response _ json =>
      match json with
      | none => caught p4
      | some data =>
        if data.success then
          let p5 :=
            if p4.rememberMe then
              { p4 with localStorage := setItem p4.localStorage "rememberedUsername" username }
            else
              { p4 with localStorage := p4.localStorage.removeItem "rememberedUsername" }
          let p6 := showAlert "Login successful! Redirecting..." "success" p5
          let p7 := { p6 with localStorage := setItem p6.localStorage "access_token" data.access }
          let p8 := { p7 with localStorage := setItem p7.localStorage "refresh_token" data.refresh }
          p8.emit (Effect.navigateLater "/dashboard" 1500)
        else
          setLoadingState false
            (showAlert ((Dashboard.truthy data.message).getD "Invalid credentials") "error" p4)

/-! ## Reference notions and concrete states -/

/-- The part of a text before its first `@`. -/
def beforeAt (l : List Char) : List Char :=
  l.takeWhile (fun c => c ≠ '@')

/-- The part of a text after its first `@`. -/
def afterAt (l : List Char) : List Char :=
  (l.dropWhile (fun c => c ≠ '@')).tail

/-- Whether a text has a `.` that is neither its first nor its last character. -/
def hasInnerDot (l : List Char) : Prop :=
  ∃ i, 0 < i ∧ i + 1 < l.length ∧ l[i]? = some '.'

/-- The description of a well-formed email: no white space, exactly one `@`,
something before it, and after it a `.` that is neither first nor last. -/
def wellFormedEmail (email : String) : Prop :=
  (∀ c ∈ email.data, Dashboard.isTrimChar c = false) ∧
  email.data.count '@' = 1 ∧
  beforeAt email.data ≠ [] ∧
  hasInnerDot (afterAt email.data)

/-- The login form as first shown, with the given field values. -/
def formPage (username password : String) : Page :=
  { localStorage := [],
    usernameInput := username,
    passwordInput := password,
    rememberMe := false,
    usernameError := "",
    usernameErrorShown := false,
    passwordError := "",
    passwordErrorShown := false,
    loading := false,
    trace := [] }

end Login

namespace Dashboard

/-! ## CSV field encoding -/

theorem includes_iff (s : String) (c : Char) : includes s c = true ↔ c ∈ s.data := by
  simp [includes]

theorem replaceQuotes_eq_bind (l : List Char) : replaceQuotes l = l.flatMap doubled := by
  induction l with
  | nil => rfl
  | cons c cs ih =>
    by_cases h : c = '"'
    · simp [replaceQuotes, doubled, h, ih]
    · simp [replaceQuotes, doubled, h, ih]

theorem length_le_replaceQuotes (l : List Char) : l.length ≤ (replaceQuotes l).length := by
  induction l with
  | nil => simp [replaceQuotes]
  | cons c cs ih =>
    by_cases h : c = '"'
    · simp [replaceQuotes, h]; omega
    · simp [replaceQuotes, h]; omega

theorem csvField_of_special (v : JSValue) (hv : v ≠ JSValue.null)
    (h : hasCommaQuoteOrNewline (jsString v)) :
    csvField v = "\"" ++ String.mk (replaceQuotes (jsString v).data) ++ "\"" := by
  unfold hasCommaQuoteOrNewline at h
  simp only [← includes_iff] at h
  unfold csvField
  rw [if_neg hv]
  rcases h with h | h | h <;> simp [h]

theorem csvField_of_plain (v : JSValue) (hv : v ≠ JSValue.null)
    (h : ¬ hasCommaQuoteOrNewline (jsString v)) : csvField v = jsString v := by
  unfold hasCommaQuoteOrNewline at h
  simp only [← includes_iff, not_or, Bool.not_eq_true] at h
  unfold csvField
  rw [if_neg hv]
  simp [h.1, h.2.1, h.2.2]

/-- C1. In `exportToCSV` the field emitted for a cell value `v` is empty when `v`
is `null`; otherwise, with `s = String(v)`, the field is `s` between double
quotes with every double quote of `s` doubled if and only if `s` contains a
comma, a double quote or a line feed, and it is `s` itself in every other case. -/
theorem csvField_contract (v : JSValue) :
    (v = JSValue.null → csvField v = "") ∧
    (v ≠ JSValue.null →
      (csvField v = "\"" ++ String.mk ((jsString v).data.flatMap doubled) ++ "\"" ↔
        hasCommaQuoteOrNewline (jsString v)) ∧
      (¬ hasCommaQuoteOrNewline (jsString v) → csvField v = jsString v)) := by
  refine ⟨fun h => by simp [csvField, h], fun hv => ⟨⟨fun h => ?_, fun h => ?_⟩, fun h => ?_⟩⟩
  · by_contra hc
    rw [csvField_of_plain v hv hc, ← replaceQuotes_eq_bind] at h
    have hlen : (jsString v).length = 1 + (replaceQuotes (jsString v).data).length + 1 := by
      have h2 := congrArg String.length h
      rw [String.length_append, String.length_append] at h2
      exact h2
    have hle := length_le_replaceQuotes (jsString v).data
    have hdata : (jsString v).length = (jsString v).data.length := rfl
    omega
  · rw [csvField_of_special v hv h, replaceQuotes_eq_bind]
  · exact csvField_of_plain v hv h

/-- At the value `say "hi", ok` the field is the quoted text with both quotes
doubled, and at `null` it is empty. -/
theorem csvField_contract_witness :
    csvField (JSValue.str "say \"hi\", ok") = "\"say \"\"hi\"\", ok\"" ∧
    csvField JSValue.null = "" :=
  ⟨((csvField_contract (JSValue.str "say \"hi\", ok")).2 (by decide)).1.mpr (by decide),
   (csvField_contract JSValue.null).1 rfl⟩

/-! ## Reading an emitted field back -/

theorem rfc4180ReadEscaped_replaceQuotes (l : List Char) :
    rfc4180ReadEscaped (replaceQuotes l ++ ['"']) = some l := by
  induction l with
  | nil => simp [replaceQuotes, rfc4180ReadEscaped]
  | cons c cs ih =>
    by_cases h : c = '"'
    · simp [replaceQuotes, h, rfc4180ReadEscaped, ih]
    · obtain ⟨d, rest, hd⟩ : ∃ d rest, replaceQuotes cs ++ ['"'] = d :: rest := by
        cases hq : replaceQuotes cs ++ ['"'] with
        | nil => simp at hq
        | cons d rest => exact ⟨d, rest, rfl⟩
      have hstep : rfc4180ReadEscaped (c :: d :: rest) =
          (rfc4180ReadEscaped (d :: rest)).map (fun value => c :: value) := by
        simp [rfc4180ReadEscaped, h]
      simp only [replaceQuotes, h, if_false, List.cons_append]
      rw [hd, hstep, ← hd, ih]
      rfl

/-- A value that the encoder quotes is read back unchanged. -/
theorem rfc4180ReadField_csvField_of_special (s : String) (h : hasCommaQuoteOrNewline s) :
    rfc4180ReadField (csvField (JSValue.str s)) = some s := by
  have hs : hasCommaQuoteOrNewline (jsString (JSValue.str s)) := h
  rw [csvField_of_special (JSValue.str s) (by simp) hs]
  have hdata : ("\"" ++ String.mk (replaceQuotes (jsString (JSValue.str s)).data) ++ "\"").data =
      '"' :: (replaceQuotes s.data ++ ['"']) := by
    simp [jsString]
  unfold rfc4180ReadField
  rw [hdata]
  simp [rfc4180ReadEscaped_replaceQuotes]

/-- A value without carriage return that the encoder leaves unquoted is read
back unchanged. -/
theorem rfc4180ReadField_csvField_of_plain (s : String) (h : ¬ hasCommaQuoteOrNewline s)
    (hcr : '\r' ∉ s.data) : rfc4180ReadField (csvField (JSValue.str s)) = some s := by
  have hs : ¬ hasCommaQuoteOrNewline (jsString (JSValue.str s)) := h
  rw [csvField_of_plain (JSValue.str s) (by simp) hs]
  simp only [jsString]
  simp only [hasCommaQuoteOrNewline, not_or] at h
  unfold rfc4180ReadField
  cases hd : s.data with
  | nil =>
    have : s = "" := by
      cases s
      simp_all
    simp [this]
  | cons c rest =>
    have hc : c ≠ '"' := by
      intro hq
      apply h.2.1
      rw [hd, hq]
      simp
    have hall : (c :: rest).all (fun x => !rfc4180Special x) = true := by
      rw [← hd, List.all_eq_true]
      intro x hx
      have h1 : x ≠ ',' := fun e => h.1 (e ▸ hx)
      have h2 : x ≠ '"' := fun e => h.2.1 (e ▸ hx)
      have h3 : x ≠ '\n' := fun e => h.2.2 (e ▸ hx)
      have h4 : x ≠ '\r' := fun e => hcr (e ▸ hx)
      simp [rfc4180Special, h1, h2, h3, h4]
    simp only [hc, if_false, hall, if_true]

/-- Round trip of the field encoder through the reference reader, for every
string without a carriage return and for every string that contains a comma, a
double quote or a line feed. -/
theorem rfc4180ReadField_csvField (s : String)
    (h : hasCommaQuoteOrNewline s ∨ '\r' ∉ s.data) :
    rfc4180ReadField (csvField (JSValue.str s)) = some s := by
  by_cases hq : hasCommaQuoteOrNewline s
  · exact rfc4180ReadField_csvField_of_special s hq
  · rcases h with h | h
    · exact absurd h hq
    · exact rfc4180ReadField_csvField_of_plain s hq h

/-- C2, at the failing input. The string `a`, carriage return, `b` contains no
comma, double quote or line feed, so the encoder emits it unquoted; a carriage
return cannot stand in a non-escaped field, and the reference reader does not
read the emitted text back as the value. -/
theorem csvField_carriage_return_not_read_back :
    csvField (JSValue.str "a\rb") = "a\rb" ∧
    rfc4180ReadField (csvField (JSValue.str "a\rb")) ≠ some "a\rb" ∧
    rfc4180ReadField "\"a\rb\"" = some "a\rb" := by
  decide

/-! ## CSV text and result table -/

theorem foldl_append_string (l : List String) (a : String) :
    l.foldl (fun r x => r ++ x) a = a ++ l.foldl (fun r x => r ++ x) "" := by
  induction l generalizing a with
  | nil => simp
  | cons x xs ih =>
    simp only [List.foldl_cons]
    rw [ih (a ++ x), ih ("" ++ x), String.empty_append, String.append_assoc]

theorem join_cons (x : String) (xs : List String) :
    String.join (x :: xs) = x ++ String.join xs := by
  unfold String.join
  simp only [List.foldl_cons]
  rw [foldl_append_string, String.empty_append]

theorem foldl_append_line (line : Row → String) (data : List Row) (init : String) :
    data.foldl (fun csv row => csv ++ line row) init = init ++ String.join (data.map line) := by
  induction data generalizing init with
  | nil => simp [String.join]
  | cons row rows ih =>
    simp only [List.foldl_cons, List.map_cons]
    rw [ih, join_cons, String.append_assoc]

theorem csvText_eq (columns : List String) (data : List Row) :
    csvText columns data =
      join columns "," ++ "\n" ++
        String.join (data.map
          (fun row => join (columns.map (fun col => csvField (row col))) "," ++ "\n")) := by
  unfold csvText
  exact foldl_append_line _ data _

theorem foldl_append_singleton {α β : Type} (f : α → β) (l : List α) (init : List β) :
    l.foldl (fun acc x => acc ++ [f x]) init = init ++ l.map f := by
  induction l generalizing init with
  | nil => simp
  | cons x xs ih => simp [ih]

theorem newEffects_emit (p q : Page) (es : List Effect) (h : q.trace = p.trace ++ es) :
    newEffects p q = es := by
  simp [newEffects, h]

/-- C3. The CSV text `exportToCSV` builds from a column list and a row list is
the column names joined by commas and a line feed, followed for each row in
input order by that row's encoded fields in column-list order joined by commas
and a line feed; whenever the stored result has a non-empty row list and a
database is selected, this text is what the handler downloads; for the columns
`id`, `name` and the single row of `obrienRow` the text is `id,name`, line
feed, `1,"O'Brien, J."`, line feed. -/
theorem exportToCSV_csv_text (columns : List String) (data : List Row) :
    csvText columns data =
      join columns "," ++ "\n" ++
        String.join (data.map
          (fun row => join (columns.map (fun col => csvField (row col))) "," ++ "\n")) ∧
    (∀ (toLowerCase : String → String) (now : Nat) (p : Page) (queryResults : ExecutePayload)
      (database : String),
      p.queryResults = some queryResults → queryResults.columns = columns →
      queryResults.data = some data → data ≠ [] → p.currentDatabase = some database →
      ∃ fileName,
        newEffects p (exportToCSV toLowerCase now p).page =
          [Effect.download fileName (csvText columns data),
           Effect.toast "Results exported successfully!" "success"]) ∧
    csvText ["id", "name"] [obrienRow] = "id,name\n1,\"O'Brien, J.\"\n" := by
  refine ⟨csvText_eq columns data, ?_, by decide⟩
  intro toLowerCase now p queryResults database hq hc hd hne hdb
  have hlen : data.length ≠ 0 := fun h => hne (List.length_eq_zero.mp h)
  unfold exportToCSV
  simp only [hq, hd, hdb, hlen, if_false]
  refine ⟨"query_results_" ++ String.mk (replaceFirstSpace (toLowerCase database).data) ++ "_" ++
    toString now ++ ".csv", ?_⟩
  apply newEffects_emit
  simp [Completion.page, showToast, Page.emit, hc]

/-- On the page `exportPage` the download holds exactly the text of the example. -/
theorem exportToCSV_csv_text_witness :
    ∃ fileName,
      newEffects exportPage (exportToCSV id 1700000000000 exportPage).page =
        [Effect.download fileName "id,name\n1,\"O'Brien, J.\"\n",
         Effect.toast "Results exported successfully!" "success"] := by
  obtain ⟨fileName, h⟩ :=
    (exportToCSV_csv_text ["id", "name"] [obrienRow]).2.1 id 1700000000000 exportPage
      obrienPayload "E-Commerce" rfl rfl rfl (by simp) rfl
  rw [(exportToCSV_csv_text ["id", "name"] [obrienRow]).2.2] at h
  exact ⟨fileName, h⟩

/-- C4. The table `displayResultTable` renders has the column list as its header
cells, in order, and one body row per data row, in order, whose cells follow the
column list; each cell shows `NULL` when the row's value for the column is
`null` and the text of the value otherwise, cell by cell: the row
`{id: 7, name: null}` shows `7` and `NULL`. -/
theorem displayResultTable_contract (columns : List String) (data : List Row) :
    (displayResultTable columns data).header = columns ∧
    (displayResultTable columns data).body =
      data.map (fun row => columns.map (fun column =>
        if row column = JSValue.null then "NULL" else textContentOf (row column))) ∧
    (displayResultTable columns data).header.length = columns.length ∧
    (displayResultTable columns data).body.length = data.length ∧
    (displayResultTable columns data).body.map List.length =
      data.map (fun _ => columns.length) ∧
    displayResultTable ["id", "name"] [obrienRow, nullNameRow] =
      { header := ["id", "name"], body := [["1", "O'Brien, J."], ["7", "NULL"]] } := by
  have hheader : (displayResultTable columns data).header = columns := by
    simp [displayResultTable, foldl_append_singleton (fun column : String => column)]
  have hbody : (displayResultTable columns data).body =
      data.map (fun row => columns.map (fun column =>
        if row column = JSValue.null then "NULL" else textContentOf (row column))) := by
    simp only [displayResultTable]
    rw [foldl_append_singleton
      (fun row : Row => columns.foldl (fun tr column => tr ++ [cellText (row column)]) [])]
    simp only [List.nil_append]
    apply List.map_congr_left
    intro row _
    rw [foldl_append_singleton (fun column => cellText (row column))]
    simp only [List.nil_append]
    apply List.map_congr_left
    intro column _
    by_cases h : row column = JSValue.null <;> simp [cellText, h]
  refine ⟨hheader, hbody, by rw [hheader], by rw [hbody, List.length_map], ?_, by decide⟩
  rw [hbody, List.map_map]
  apply List.map_congr_left
  intro row _
  simp

/-! ## Session guard -/

theorem getItem_eq_none_iff (s : Storage) (key : String) :
    s.getItem key = none ↔ ∀ kv ∈ s, kv.1 ≠ key := by
  simp [Storage.getItem, List.find?_eq_none]

theorem getItem_removeItem (s : Storage) (key : String) :
    (s.removeItem key).getItem key = none := by
  rw [getItem_eq_none_iff]
  intro kv hkv
  simp [Storage.removeItem] at hkv
  exact hkv.2

theorem getItem_removeItem_of_none (s : Storage) (key other : String)
    (h : s.getItem key = none) : (s.removeItem other).getItem key = none := by
  rw [getItem_eq_none_iff] at h ⊢
  intro kv hkv
  simp [Storage.removeItem] at hkv
  exact h kv hkv.1

theorem truthy_eq_some (value : Option String) (token : String)
    (h : truthy value = some token) : value = some token ∧ token ≠ "" := by
  cases value with
  | none => simp [truthy] at h
  | some s =>
    by_cases hs : s = ""
    · simp [truthy, hs] at h
    · simp [truthy, hs] at h
      subst h
      exact ⟨rfl, hs⟩

/-- What `validateSession` resolves to: `true` exactly when a token is stored and
a response arrived whose status is not 401. -/
theorem validateSession_eq_true_iff (reply : Reply Unit) (p : Page) :
    (validateSession reply p).1 = true ↔
      (∃ token, truthy (p.localStorage.getItem "access_token") = some token) ∧
      ∃ status json, reply = Reply.response status json ∧ status ≠ 401 := by
  unfold validateSession
  cases ht : truthy (p.localStorage.getItem "access_token") with
  | none => simp
  | some token =>
    cases reply with
    | failure => simp
    | response status json =>
      by_cases h401 : status = 401
      · subst h401
        simp [ok]
      · by_cases hok : ok status = true <;> simp [hok, h401]

/-- A run of `validateSession` that resolves to `true` leaves the page as it
was, apart from the request it recorded. -/
theorem validateSession_of_true (reply : Reply Unit) (p : Page)
    (h : (validateSession reply p).1 = true) :
    ∃ token, truthy (p.localStorage.getItem "access_token") = some token ∧
      (validateSession reply p).2 = p.emit (Effect.fetch "GET" "/auth/validate/" token []) := by
  obtain ⟨⟨token, ht⟩, status, json, hr, h401⟩ := (validateSession_eq_true_iff reply p).mp h
  refine ⟨token, ht, ?_⟩
  subst hr
  unfold validateSession
  rw [ht]
  by_cases hok : ok status = true <;> simp [hok, h401]

/-- C5, at the failing input. With a token stored and the validation endpoint
answering 500, which is not a success status, `validateSession` resolves to
`true`, keeps the tokens and does not redirect. -/
theorem validateSession_true_on_status_500 :
    ok 500 = false ∧
    (validateSession (Reply.response 500 none) signedInPage).1 = true ∧
    (validateSession (Reply.response 500 none) signedInPage).2.localStorage =
      signedInPage.localStorage ∧
    newEffects signedInPage (validateSession (Reply.response 500 none) signedInPage).2 =
      [Effect.fetch "GET" "/auth/validate/" "A" []] := by
  decide

/-- C6. With an access token stored, a 401 answer or a transport failure makes
`validateSession` remove both tokens, empty the session storage, end with the
history-replacing navigation to `/login` and resolve to `false`; with no access
token stored it makes that navigation as its only step, so without a request,
and resolves to `false`. -/
theorem validateSession_fails_closed (reply : Reply Unit) (p : Page) :
    (∀ token, truthy (p.localStorage.getItem "access_token") = some token →
      (reply = Reply.failure ∨ ∃ json, reply = Reply.response 401 json) →
      (validateSession reply p).1 = false ∧
      (validateSession reply p).2.localStorage.getItem "access_token" = none ∧
      (validateSession reply p).2.localStorage.getItem "refresh_token" = none ∧
      (validateSession reply p).2.sessionStorage = [] ∧
      (newEffects p (validateSession reply p).2).getLast? =
        some (Effect.locationReplace "/login")) ∧
    (truthy (p.localStorage.getItem "access_token") = none →
      (validateSession reply p).1 = false ∧
      newEffects p (validateSession reply p).2 = [Effect.locationReplace "/login"] ∧
      (validateSession reply p).2.localStorage = p.localStorage ∧
      (validateSession reply p).2.sessionStorage = p.sessionStorage) := by
  constructor
  · intro token ht hreply
    have hstore : ∀ q : Page, q.localStorage = p.localStorage →
        (clearSessionAndRedirect q).localStorage.getItem "access_token" = none ∧
        (clearSessionAndRedirect q).localStorage.getItem "refresh_token" = none ∧
        (clearSessionAndRedirect q).sessionStorage = [] := by
      intro q _
      refine ⟨?_, ?_, rfl⟩
      · exact getItem_removeItem_of_none _ _ _ (getItem_removeItem _ _)
      · exact getItem_removeItem _ _
    rcases hreply with hf | ⟨json, h401⟩
    · subst hf
      have hrun : validateSession Reply.failure p =
          (false, clearSessionAndRedirect
            ((p.emit (Effect.fetch "GET" "/auth/validate/" token [])).emit
              (Effect.consoleError "Session validation error:"))) := by
        unfold validateSession
        rw [ht]
      rw [hrun]
      refine ⟨rfl, (hstore _ rfl).1, (hstore _ rfl).2.1, (hstore _ rfl).2.2, ?_⟩
      simp [newEffects, clearSessionAndRedirect, redirectToLogin, Page.emit]
    · subst h401
      have hrun : validateSession (Reply.response 401 json) p =
          (false, clearSessionAndRedirect (p.emit (Effect.fetch "GET" "/auth/validate/" token []))) := by
        unfold validateSession
        rw [ht]
        simp [ok]
      rw [hrun]
      refine ⟨rfl, (hstore _ rfl).1, (hstore _ rfl).2.1, (hstore _ rfl).2.2, ?_⟩
      simp [newEffects, clearSessionAndRedirect, redirectToLogin, Page.emit]
  · intro hnone
    have hrun : validateSession reply p = (false, redirectToLogin p) := by
      unfold validateSession
      rw [hnone]
    rw [hrun]
    refine ⟨rfl, ?_, rfl, rfl⟩
    simp [newEffects, redirectToLogin, Page.emit]

/-- On the signed-in page a 401 answer empties the session, and on the page
without token the redirect is the only step. -/
theorem validateSession_fails_closed_witness :
    ((validateSession (Reply.response 401 none) signedInPage).1 = false ∧
      (validateSession (Reply.response 401 none) signedInPage).2.localStorage.getItem
        "access_token" = none ∧
      (validateSession (Reply.response 401 none) signedInPage).2.localStorage.getItem
        "refresh_token" = none ∧
      (validateSession (Reply.response 401 none) signedInPage).2.sessionStorage = [] ∧
      (newEffects signedInPage (validateSession (Reply.response 401 none) signedInPage).2).getLast? =
        some (Effect.locationReplace "/login")) ∧
    ((validateSession (Reply.response 401 none) signedOutPage).1 = false ∧
      newEffects signedOutPage (validateSession (Reply.response 401 none) signedOutPage).2 =
        [Effect.locationReplace "/login"] ∧
      (validateSession (Reply.response 401 none) signedOutPage).2.localStorage =
        signedOutPage.localStorage ∧
      (validateSession (Reply.response 401 none) signedOutPage).2.sessionStorage =
        signedOutPage.sessionStorage) :=
  ⟨(validateSession_fails_closed (Reply.response 401 none) signedInPage).1 "A" (by decide)
      (Or.inr ⟨none, rfl⟩),
   (validateSession_fails_closed (Reply.response 401 none) signedOutPage).2 (by decide)⟩

/-! ## Query execution -/

/-- The steps of `validateSession` are its own request, a console message and
the redirect: never a request to the execute endpoint, never a rendering. -/
theorem validateSession_steps (reply : Reply Unit) (p : Page) (e : Effect)
    (he : e ∈ newEffects p (validateSession reply p).2) :
    isExecuteRequest e = false ∧ e ≠ Effect.displayResults := by
  unfold validateSession at he
  cases ht : truthy (p.localStorage.getItem "access_token") with
  | none =>
    rw [ht] at he
    simp [newEffects, redirectToLogin, Page.emit] at he
    subst he
    exact ⟨rfl, by simp⟩
  | some token =>
    rw [ht] at he
    cases reply with
    | failure =>
      simp [newEffects, clearSessionAndRedirect, redirectToLogin, Page.emit] at he
      rcases he with he | he | he <;> subst he <;> exact ⟨by simp [isExecuteRequest], by simp⟩
    | response status json =>
      by_cases hok : ok status = true
      · simp [hok, newEffects, Page.emit] at he
        subst he
        exact ⟨by simp [isExecuteRequest], by simp⟩
      · by_cases h401 : status = 401
        · subst h401
          have hnot : ok 401 = false := by decide
          simp [hnot, newEffects, clearSessionAndRedirect, redirectToLogin, Page.emit] at he
          rcases he with he | he <;> subst he <;> exact ⟨by simp [isExecuteRequest], by simp⟩
        · simp [hok, h401, newEffects, Page.emit] at he
          subst he
          exact ⟨by simp [isExecuteRequest], by simp⟩

/-- The run of `generateAndExecuteSQL` when the session guard resolves to
`false`: nothing happens after the guard. -/
theorem generateAndExecuteSQL_of_invalid (net : Network) (p : Page)
    (h : (validateSession net.validate p).1 = false) :
    generateAndExecuteSQL net p = (validateSession net.validate p).2 := by
  unfold generateAndExecuteSQL
  rcases hv : validateSession net.validate p with ⟨isValid, p1⟩
  rw [hv] at h
  simp only at h
  simp [h]

/-- The run of `generateAndExecuteSQL` when the session guard resolves to `true`
and the local check rejects: the request of the guard and one warning. -/
theorem generateAndExecuteSQL_of_rejected (net : Network) (p : Page)
    (hv : (validateSession net.validate p).1 = true)
    (h : jsTrim p.queryInput = "" ∨ truthy p.currentDatabase = none) :
    ∃ token message,
      truthy (p.localStorage.getItem "access_token") = some token ∧
      generateAndExecuteSQL net p =
        showToast message "warning" (p.emit (Effect.fetch "GET" "/auth/validate/" token [])) := by
  obtain ⟨token, ht, hp1⟩ := validateSession_of_true net.validate p hv
  unfold generateAndExecuteSQL
  rcases hvs : validateSession net.validate p with ⟨isValid, p1⟩
  rw [hvs] at hv hp1
  simp only at hv hp1
  subst hv hp1
  by_cases hq : jsTrim p.queryInput = ""
  · exact ⟨token, "Please enter a query", ht, by simp [Page.emit, hq]⟩
  · have hdb : truthy p.currentDatabase = none := h.resolve_left hq
    exact ⟨token, "Please select a database", ht, by simp [Page.emit, hq, hdb]⟩

/-- C7. In every run of `generateAndExecuteSQL`, whatever the endpoints answer, a
request to `/query/execute/` or an entry into `displayResults` among the steps
of the run implies that `validateSession` resolved to `true` in that run, that
an access token is stored, and that `currentDatabase` is a non-empty string. -/
theorem generateAndExecuteSQL_guarded (net : Network) (p : Page) (e : Effect)
    (he : e ∈ newEffects p (generateAndExecuteSQL net p))
    (hk : isExecuteRequest e = true ∨ e = Effect.displayResults) :
    (validateSession net.validate p).1 = true ∧
    (∃ token, p.localStorage.getItem "access_token" = some token ∧ token ≠ "") ∧
    (∃ database, p.currentDatabase = some database ∧ database ≠ "") := by
  have hbenign : ∀ es : List Effect, e ∈ es →
      (∀ x ∈ es, isExecuteRequest x = false ∧ x ≠ Effect.displayResults) → False := by
    intro es hmem hall
    rcases hk with hk | hk
    · rw [(hall e hmem).1] at hk
      exact Bool.false_ne_true hk
    · exact (hall e hmem).2 hk
  by_cases hv : (validateSession net.validate p).1 = true
  · obtain ⟨token, ht, _⟩ := validateSession_of_true net.validate p hv
    refine ⟨hv, ⟨token, truthy_eq_some _ _ ht⟩, ?_⟩
    by_contra hdb
    have hnone : truthy p.currentDatabase = none := by
      cases hd : truthy p.currentDatabase with
      | none => rfl
      | some database => exact absurd ⟨database, truthy_eq_some _ _ hd⟩ hdb
    obtain ⟨token2, message, _, hrun⟩ :=
      generateAndExecuteSQL_of_rejected net p hv (Or.inr hnone)
    rw [hrun] at he
    apply hbenign _ he
    intro x hx
    simp [newEffects, showToast, Page.emit] at hx
    rcases hx with hx | hx <;> subst hx <;> exact ⟨by simp [isExecuteRequest], by simp⟩
  · exfalso
    have hfalse : (validateSession net.validate p).1 = false := by
      simpa using hv
    rw [generateAndExecuteSQL_of_invalid net p hfalse] at he
    exact hbenign _ he (fun x hx => validateSession_steps net.validate p x hx)

/-- On the page `askPage` with every endpoint answering 200 the rendering is
reached, and the three conditions hold there. -/
theorem generateAndExecuteSQL_guarded_witness :
    Effect.displayResults ∈ newEffects askPage (generateAndExecuteSQL okNetwork askPage) ∧
    (validateSession okNetwork.validate askPage).1 = true ∧
    (∃ token, askPage.localStorage.getItem "access_token" = some token ∧ token ≠ "") ∧
    (∃ database, askPage.currentDatabase = some database ∧ database ≠ "") :=
  ⟨by decide,
   generateAndExecuteSQL_guarded okNetwork askPage Effect.displayResults (by decide)
     (Or.inr rfl)⟩

/-- C8 as stated fails. With a token stored, the validation endpoint answering
200 and a question of blanks only, the action issues an HTTP request, the one
of the session guard; and on the page without token no warning is shown. -/
theorem generateAndExecuteSQL_blank_question_requests :
    jsTrim blankQuestionPage.queryInput = "" ∧
    newEffects blankQuestionPage (generateAndExecuteSQL okNetwork blankQuestionPage) =
      [Effect.fetch "GET" "/auth/validate/" "A" [],
       Effect.toast "Please enter a query" "warning"] ∧
    jsTrim signedOutPage.queryInput = "" ∧
    newEffects signedOutPage (generateAndExecuteSQL okNetwork signedOutPage) =
      [Effect.locationReplace "/login"] := by
  decide

/-- C8, amended. When `validateSession` resolved to `true` and the question is
empty after trimming or no database is selected, the steps of
`generateAndExecuteSQL` are the request of the session guard to
`/auth/validate/` followed by one warning notification: no other HTTP request
is issued, in particular none to `/query/execute/`. -/
theorem generateAndExecuteSQL_local_rejection (net : Network) (p : Page)
    (hv : (validateSession net.validate p).1 = true)
    (h : jsTrim p.queryInput = "" ∨ p.currentDatabase = none ∨ p.currentDatabase = some "") :
    ∃ token message,
      newEffects p (generateAndExecuteSQL net p) =
        [Effect.fetch "GET" "/auth/validate/" token [], Effect.toast message "warning"] ∧
      ∀ e ∈ newEffects p (generateAndExecuteSQL net p),
        isRequest e = true → e = Effect.fetch "GET" "/auth/validate/" token [] := by
  have h2 : jsTrim p.queryInput = "" ∨ truthy p.currentDatabase = none := by
    rcases h with h | h | h
    · exact Or.inl h
    · exact Or.inr (by rw [h]; rfl)
    · exact Or.inr (by rw [h]; rfl)
  obtain ⟨token, message, _, hrun⟩ := generateAndExecuteSQL_of_rejected net p hv h2
  have hnew : newEffects p (generateAndExecuteSQL net p) =
      [Effect.fetch "GET" "/auth/validate/" token [], Effect.toast message "warning"] := by
    rw [hrun]
    simp [newEffects, showToast, Page.emit]
  refine ⟨token, message, hnew, ?_⟩
  intro e he hreq
  rw [hnew] at he
  simp at he
  rcases he with he | he
  · exact he
  · subst he
    simp [isRequest] at hreq

/-- On the page `blankQuestionPage` the run is the guard's request and the
warning about the missing question. -/
theorem generateAndExecuteSQL_local_rejection_witness :
    ∃ token message,
      newEffects blankQuestionPage (generateAndExecuteSQL okNetwork blankQuestionPage) =
        [Effect.fetch "GET" "/auth/validate/" token [], Effect.toast message "warning"] ∧
      ∀ e ∈ newEffects blankQuestionPage (generateAndExecuteSQL okNetwork blankQuestionPage),
        isRequest e = true → e = Effect.fetch "GET" "/auth/validate/" token [] :=
  generateAndExecuteSQL_local_rejection okNetwork blankQuestionPage (by decide)
    (Or.inl (by decide))

/-! ## Database selection -/

/-- The run of `handleDatabaseChange` with a valid session and the empty option:
the schema, statistics and example panels are hidden and the button is
disabled; the `display` of every other element, the history panel included, is
what it was before. -/
theorem handleDatabaseChange_empty_option (net : Network) (p : Page)
    (hv : (validateSession net.validate p).1 = true) :
    (handleDatabaseChange "" net p).threw = false ∧
    (handleDatabaseChange "" net p).page.currentDatabase = some "" ∧
    (handleDatabaseChange "" net p).page.generateBtnDisabled = true ∧
    (handleDatabaseChange "" net p).page.display "schemaSection" = "none" ∧
    (handleDatabaseChange "" net p).page.display "statsSection" = "none" ∧
    (handleDatabaseChange "" net p).page.display "exampleQueries" = "none" ∧
    ∀ id, id ≠ "schemaSection" → id ≠ "statsSection" → id ≠ "exampleQueries" →
      (handleDatabaseChange "" net p).page.display id = p.display id := by
  obtain ⟨token, _, hp1⟩ := validateSession_of_true net.validate p hv
  unfold handleDatabaseChange
  rcases hvs : validateSession net.validate p with ⟨isValid, p1⟩
  rw [hvs] at hv hp1
  simp only at hv hp1
  subst hv hp1
  refine ⟨?_, ?_, ?_, ?_, ?_, ?_, ?_⟩ <;>
    simp [truthy, Completion.threw, Completion.page, Page.setDisplay, Page.emit]
  intro id h1 h2 h3
  simp [h1, h2, h3]

/-- C9, at the failing input. On the signed-in page, where the history panel is
shown, selecting the empty option with a valid session hides the schema,
statistics and example panels and disables the button, and leaves the history
panel shown. -/
theorem handleDatabaseChange_empty_option_keeps_history :
    (validateSession okNetwork.validate signedInPage).1 = true ∧
    signedInPage.display "historySection" = "block" ∧
    (handleDatabaseChange "" okNetwork signedInPage).page.display "schemaSection" = "none" ∧
    (handleDatabaseChange "" okNetwork signedInPage).page.display "statsSection" = "none" ∧
    (handleDatabaseChange "" okNetwork signedInPage).page.display "exampleQueries" = "none" ∧
    (handleDatabaseChange "" okNetwork signedInPage).page.generateBtnDisabled = true ∧
    (handleDatabaseChange "" okNetwork signedInPage).page.display "historySection" = "block" := by
  decide

/-! ## Example questions -/

theorem foldl_exampleButtons (queries : List String) (p : Page) :
    (queries.foldl
      (fun (q : Page) query => { q with exampleButtons := q.exampleButtons ++ [query] })
      p).exampleButtons = p.exampleButtons ++ queries := by
  induction queries generalizing p with
  | nil => simp
  | cons query rest ih => simp [ih]

/-- For a name whose lookup is not an inherited property, `showExampleQueries`
ends normally with one button per entry of the lookup, in lookup order and with
the entry as its text (none when the name has no entry), and shows the section. -/
theorem showExampleQueries_buttons (database : String) (p : Page)
    (h : exampleQueries database ≠ Property.inherited) :
    (showExampleQueries database p).threw = false ∧
    (showExampleQueries database p).page.exampleButtons =
      (match exampleQueries database with
        | Property.array items => items
        | _ => []) ∧
    (showExampleQueries database p).page.display "exampleQueries" = "block" := by
  unfold showExampleQueries
  cases hq : exampleQueries database with
  | inherited => exact absurd hq h
  | array items =>
    simp [Completion.threw, Completion.page, Page.setDisplay, foldl_exampleButtons]
  | undefined =>
    simp [Completion.threw, Completion.page, Page.setDisplay]

/-- The buttons for the database E-Commerce are the five strings of lines 11-15. -/
theorem showExampleQueries_ecommerce (p : Page) :
    (showExampleQueries "E-Commerce" p).page.exampleButtons =
      ["Show me the top 5 customers by total order amount",
       "Find all products with stock less than 10",
       "Get all orders from the last 30 days",
       "Which product categories have the highest revenue?",
       "List all cancelled orders with their customer details"] := by
  have h : exampleQueries "E-Commerce" ≠ Property.inherited := by decide
  rw [(showExampleQueries_buttons "E-Commerce" p h).2.1]
  rfl

/-- A name that is neither one of the three keys nor a name inherited from
`Object.prototype` gets no button. -/
theorem showExampleQueries_unknown (database : String) (p : Page)
    (h1 : database ≠ "E-Commerce") (h2 : database ≠ "Hospital Management")
    (h3 : database ≠ "School Management") (h4 : database ∉ objectPrototypeKeys) :
    (showExampleQueries database p).threw = false ∧
    (showExampleQueries database p).page.exampleButtons = [] := by
  have hq : exampleQueries database = Property.undefined := by
    unfold exampleQueries
    simp [h1, h2, h3, h4]
  have h : exampleQueries database ≠ Property.inherited := by
    rw [hq]
    simp
  refine ⟨(showExampleQueries_buttons database p h).1, ?_⟩
  rw [(showExampleQueries_buttons database p h).2.1, hq]

/-- C10, at the failing input. The database name `constructor` is none of the
three keys, yet `exampleQueries[database]` finds the function inherited from
`Object.prototype`, the fallback to the empty array is skipped, and
`showExampleQueries` throws after emptying the buttons and before showing the
section; in `handleDatabaseChange` the exception escapes and the history of the
database is never requested. -/
theorem showExampleQueries_inherited_name_throws :
    "constructor" ≠ "E-Commerce" ∧ "constructor" ≠ "Hospital Management" ∧
    "constructor" ≠ "School Management" ∧
    exampleQueries "constructor" = Property.inherited ∧
    (showExampleQueries "constructor" signedInPage).threw = true ∧
    (showExampleQueries "constructor" signedInPage).page.exampleButtons = [] ∧
    (handleDatabaseChange "constructor" okNetwork signedInPage).threw = true ∧
    newEffects signedInPage (handleDatabaseChange "constructor" okNetwork signedInPage).page =
      [Effect.fetch "GET" "/auth/validate/" "A" [],
       Effect.fetch "GET" "/query/schema/" "A" [("database", "constructor")],
       Effect.fetch "GET" "/query/stats/" "A" [("database", "constructor")]] ∧
    (showExampleQueries "Unknown DB" signedInPage).threw = false ∧
    (showExampleQueries "Unknown DB" signedInPage).page.exampleButtons = [] := by
  decide

end Dashboard

namespace Login

/-! ## Email pattern -/

theorem matchItems_nil (s : List Char) : matchItems [] s = true ↔ s = [] := by
  cases s <;> simp [matchItems]

theorem matchItems_one (cls : Char → Bool) (rest : List Item) (s : List Char) :
    matchItems (Item.one cls :: rest) s = true ↔
      ∃ c t, s = c :: t ∧ cls c = true ∧ matchItems rest t = true := by
  cases s with
  | nil => simp [matchItems]
  | cons c cs =>
    simp only [matchItems, Bool.and_eq_true]
    constructor
    · intro h
      exact ⟨c, cs, rfl, h.1, h.2⟩
    · rintro ⟨x, t, hs, hx, ht⟩
      simp only [List.cons.injEq] at hs
      obtain ⟨h1, h2⟩ := hs
      subst h1 h2
      exact ⟨hx, ht⟩

theorem matchItems_many1 (cls : Char → Bool) (rest : List Item) (s : List Char) :
    matchItems (Item.many1 cls :: rest) s = true ↔
      ∃ a t, a ≠ [] ∧ s = a ++ t ∧ (∀ c ∈ a, cls c = true) ∧ matchItems rest t = true := by
  induction s with
  | nil =>
    simp only [matchItems, Bool.false_eq_true, false_iff]
    rintro ⟨a, t, ha, hs, _⟩
    cases a with
    | nil => exact ha rfl
    | cons x xs => simp at hs
  | cons c cs ih =>
    simp only [matchItems, Bool.and_eq_true, Bool.or_eq_true]
    constructor
    · rintro ⟨hc, h | h⟩
      · obtain ⟨a, t, _, hs, hall, hrest⟩ := ih.mp h
        refine ⟨c :: a, t, by simp, by simp [hs], ?_, hrest⟩
        intro x hx
        rcases List.mem_cons.mp hx with hx | hx
        · rw [hx]; exact hc
        · exact hall x hx
      · exact ⟨[c], cs, by simp, by simp, by simpa using hc, h⟩
    · rintro ⟨a, t, ha, hs, hall, hrest⟩
      cases a with
      | nil => exact absurd rfl ha
      | cons x xs =>
        simp only [List.cons_append, List.cons.injEq] at hs
        obtain ⟨hx, hcs⟩ := hs
        subst hx
        refine ⟨hall c (by simp), ?_⟩
        cases xs with
        | nil =>
          right
          simpa [hcs] using hrest
        | cons y ys =>
          left
          exact ih.mpr ⟨y :: ys, t, by simp, hcs, fun z hz => hall z (by simp [List.mem_cons] at hz ⊢; tauto), hrest⟩

/-- The shape of the texts the pattern accepts. -/
theorem isValidEmail_iff_shape (email : String) :
    isValidEmail email = true ↔
      ∃ a b c, a ≠ [] ∧ b ≠ [] ∧ c ≠ [] ∧ email.data = a ++ '@' :: (b ++ '.' :: c) ∧
        (∀ x ∈ a, notSpaceOrAt x = true) ∧ (∀ x ∈ b, notSpaceOrAt x = true) ∧
        (∀ x ∈ c, notSpaceOrAt x = true) := by
  unfold isValidEmail emailRegex
  constructor
  · intro h
    obtain ⟨a, t1, ha, hs1, halla, h1⟩ := (matchItems_many1 _ _ _).mp h
    obtain ⟨c1, t2, hs2, hc1, h2⟩ := (matchItems_one _ _ _).mp h1
    obtain ⟨b, t3, hb, hs3, hallb, h3⟩ := (matchItems_many1 _ _ _).mp h2
    obtain ⟨c2, t4, hs4, hc2, h4⟩ := (matchItems_one _ _ _).mp h3
    obtain ⟨c, t5, hc, hs5, hallc, h5⟩ := (matchItems_many1 _ _ _).mp h4
    have ht5 : t5 = [] := (matchItems_nil _).mp h5
    simp only [decide_eq_true_eq] at hc1 hc2
    subst hc1 hc2 ht5 hs5 hs4 hs3 hs2
    exact ⟨a, b, c, ha, hb, hc, by simpa using hs1, halla, hallb, hallc⟩
  · rintro ⟨a, b, c, ha, hb, hc, hs, halla, hallb, hallc⟩
    rw [hs]
    refine (matchItems_many1 _ _ _).mpr ⟨a, _, ha, rfl, halla, ?_⟩
    refine (matchItems_one _ _ _).mpr ⟨'@', _, rfl, by simp, ?_⟩
    refine (matchItems_many1 _ _ _).mpr ⟨b, _, hb, rfl, hallb, ?_⟩
    refine (matchItems_one _ _ _).mpr ⟨'.', _, rfl, by simp, ?_⟩
    refine (matchItems_many1 _ _ _).mpr ⟨c, [], hc, by simp, hallc, ?_⟩
    exact (matchItems_nil _).mpr rfl

theorem notSpaceOrAt_iff (c : Char) :
    notSpaceOrAt c = true ↔ Dashboard.isTrimChar c = false ∧ c ≠ '@' := by
  simp [notSpaceOrAt]

theorem beforeAt_append (a r : List Char) (h : '@' ∉ a) : beforeAt (a ++ '@' :: r) = a := by
  induction a with
  | nil => simp [beforeAt]
  | cons x xs ih =>
    have hx : x ≠ '@' := fun e => h (by simp [e])
    have hxs : '@' ∉ xs := fun e => h (by simp [e])
    have := ih hxs
    simp only [beforeAt] at this ⊢
    simpa [List.takeWhile, hx] using this

theorem afterAt_append (a r : List Char) (h : '@' ∉ a) : afterAt (a ++ '@' :: r) = r := by
  induction a with
  | nil => simp [afterAt]
  | cons x xs ih =>
    have hx : x ≠ '@' := fun e => h (by simp [e])
    have hxs : '@' ∉ xs := fun e => h (by simp [e])
    have := ih hxs
    simp only [afterAt] at this ⊢
    simpa [List.dropWhile, hx] using this

theorem not_mem_beforeAt (l : List Char) : '@' ∉ beforeAt l := by
  induction l with
  | nil => simp [beforeAt]
  | cons x xs ih =>
    by_cases hx : x = '@'
    · simp [beforeAt, List.takeWhile, hx]
    · simp only [beforeAt] at ih ⊢
      simpa [List.takeWhile, hx, Ne.symm hx] using ih

theorem split_at (l : List Char) (h : '@' ∈ l) : l = beforeAt l ++ '@' :: afterAt l := by
  induction l with
  | nil => simp at h
  | cons x xs ih =>
    by_cases hx : x = '@'
    · simp [beforeAt, afterAt, List.takeWhile, List.dropWhile, hx]
    · have hxs : '@' ∈ xs := by
        rcases List.mem_cons.mp h with e | e
        · exact absurd e.symm hx
        · exact e
      have := ih hxs
      simp only [beforeAt, afterAt] at this ⊢
      simpa [List.takeWhile, List.dropWhile, hx] using this

theorem split_at_index (l : List Char) (i : Nat) (x : Char) (h : l[i]? = some x) :
    l = l.take i ++ x :: l.drop (i + 1) := by
  induction l generalizing i with
  | nil => simp at h
  | cons y ys ih =>
    cases i with
    | zero =>
      simp at h
      simp [h]
    | succ j =>
      simp at h
      simpa using ih j h

/-- The texts of the accepted shape are exactly the well-formed ones. -/
theorem shape_iff_wellFormed (l : List Char) :
    (∃ a b c, a ≠ [] ∧ b ≠ [] ∧ c ≠ [] ∧ l = a ++ '@' :: (b ++ '.' :: c) ∧
        (∀ x ∈ a, notSpaceOrAt x = true) ∧ (∀ x ∈ b, notSpaceOrAt x = true) ∧
        (∀ x ∈ c, notSpaceOrAt x = true)) ↔
      ((∀ x ∈ l, Dashboard.isTrimChar x = false) ∧ l.count '@' = 1 ∧ beforeAt l ≠ [] ∧
        hasInnerDot (afterAt l)) := by
  constructor
  · rintro ⟨a, b, c, ha, hb, hc, hl, halla, hallb, hallc⟩
    have hna : '@' ∉ a := fun h => ((notSpaceOrAt_iff _).mp (halla _ h)).2 rfl
    have hnb : '@' ∉ b := fun h => ((notSpaceOrAt_iff _).mp (hallb _ h)).2 rfl
    have hnc : '@' ∉ c := fun h => ((notSpaceOrAt_iff _).mp (hallc _ h)).2 rfl
    subst hl
    refine ⟨?_, ?_, ?_, ?_⟩
    · intro x hx
      simp only [List.mem_append, List.mem_cons] at hx
      rcases hx with hx | hx | hx | hx | hx
      · exact ((notSpaceOrAt_iff _).mp (halla _ hx)).1
      · subst hx; decide
      · exact ((notSpaceOrAt_iff _).mp (hallb _ hx)).1
      · subst hx; decide
      · exact ((notSpaceOrAt_iff _).mp (hallc _ hx)).1
    · simp [List.count_append, List.count_cons, List.count_eq_zero.mpr hna,
        List.count_eq_zero.mpr hnb, List.count_eq_zero.mpr hnc]
    · rw [beforeAt_append a _ hna]
      exact ha
    · rw [afterAt_append a _ hna]
      refine ⟨b.length, List.length_pos.mpr hb, ?_, ?_⟩
      · have := List.length_pos.mpr hc
        simp
        omega
      · rw [List.getElem?_append_right (le_refl _)]
        simp
  · rintro ⟨hws, hcount, hbefore, i, hi0, hi1, hdot⟩
    have hmem : '@' ∈ l := List.count_pos_iff.mp (by omega)
    have hsplit := split_at l hmem
    have hna := not_mem_beforeAt l
    have hnd : '@' ∉ afterAt l := by
      have hc := congrArg (List.count '@') hsplit
      rw [List.count_append, List.count_cons, List.count_eq_zero.mpr hna, hcount] at hc
      simp at hc
      exact List.count_eq_zero.mp hc
    have hd := split_at_index (afterAt l) i '.' hdot
    have hall : ∀ part : List Char, (∀ x ∈ part, x ∈ l) → '@' ∉ part →
        ∀ x ∈ part, notSpaceOrAt x = true := by
      intro part hsub hn x hx
      exact (notSpaceOrAt_iff x).mpr ⟨hws x (hsub x hx), fun e => hn (e ▸ hx)⟩
    have hsubA : ∀ x ∈ beforeAt l, x ∈ l := fun x hx => by
      rw [hsplit]; simp [hx]
    have hsubD : ∀ x ∈ afterAt l, x ∈ l := fun x hx => by
      rw [hsplit]; simp [hx]
    refine ⟨beforeAt l, (afterAt l).take i, (afterAt l).drop (i + 1), hbefore, ?_, ?_, ?_,
      hall _ hsubA hna, ?_, ?_⟩
    · intro h
      have hlen := congrArg List.length h
      rw [List.length_take] at hlen
      simp only [List.length_nil] at hlen
      omega
    · intro h
      have hlen := congrArg List.length h
      rw [List.length_drop] at hlen
      simp only [List.length_nil] at hlen
      omega
    · rw [← hd]
      exact hsplit
    · exact hall _ (fun x hx => hsubD x (List.mem_of_mem_take hx))
        (fun h => hnd (List.mem_of_mem_take h))
    · exact hall _ (fun x hx => hsubD x (List.mem_of_mem_drop hx))
        (fun h => hnd (List.mem_of_mem_drop h))

/-- C16. The function `isValidEmail` accepts an email if and only if it contains
no white space character, contains exactly one `@`, has at least one character
before the `@`, and the part after the `@` contains a `.` that is neither its
first nor its last character. -/
theorem isValidEmail_iff_wellFormed (email : String) :
    isValidEmail email = true ↔ wellFormedEmail email := by
  rw [isValidEmail_iff_shape]
  exact shape_iff_wellFormed email.data

/-! ## Form validation -/

theorem jsLength_empty : jsLength "" = 0 := rfl

theorem validateInputs_trace (username password : String) (p : Page) :
    (validateInputs username password p).2.trace = p.trace := by
  unfold validateInputs
  by_cases h1 : username = "" <;> by_cases h2 : isValidEmail username = true <;>
    by_cases h3 : password = "" <;> by_cases h4 : jsLength password < 6 <;>
    simp [h1, h2, h3, h4, showError]

theorem validateInputs_eq_true_iff (username password : String) (p : Page) :
    (validateInputs username password p).1 = true ↔
      username ≠ "" ∧ isValidEmail username = true ∧ 6 ≤ jsLength password := by
  unfold validateInputs
  by_cases h3 : password = ""
  · subst h3
    by_cases h1 : username = "" <;> by_cases h2 : isValidEmail username = true <;>
      simp [h1, h2, jsLength_empty]
  · by_cases h4 : jsLength password < 6
    · have h5 : ¬ 6 ≤ jsLength password := by omega
      by_cases h1 : username = "" <;> by_cases h2 : isValidEmail username = true <;>
        simp [h1, h2, h3, h4, h5]
    · have h5 : 6 ≤ jsLength password := by omega
      by_cases h1 : username = "" <;> by_cases h2 : isValidEmail username = true <;>
        simp [h1, h2, h3, h4, h5]

theorem validateInputs_short_password (username password : String) (p : Page)
    (hne : password ≠ "") (hshort : jsLength password < 6) :
    (validateInputs username password p).1 = false ∧
    (validateInputs username password p).2.passwordError =
      "Password must be at least 6 characters" ∧
    (validateInputs username password p).2.passwordErrorShown = true := by
  unfold validateInputs
  by_cases h1 : username = "" <;> by_cases h2 : isValidEmail username = true <;>
    simp [h1, h2, hne, hshort, showError]

/-- The run of the submit listener when the validation fails: it ends right
after the validation. -/
theorem submit_of_invalid (reply : Dashboard.Reply LoginPayload) (p : Page)
    (h : (validateInputs (Dashboard.jsTrim p.usernameInput) p.passwordInput
      (clearErrors p)).1 = false) :
    submit reply p =
      (validateInputs (Dashboard.jsTrim p.usernameInput) p.passwordInput (clearErrors p)).2 := by
  unfold submit
  simp only [clearErrors] at h ⊢
  rcases hv : validateInputs (Dashboard.jsTrim p.usernameInput) p.passwordInput _ with
    ⟨isValid, p2⟩
  rw [hv] at h
  simp only at h
  simp [h]

/-- C11. The function `validateInputs(username, password)` returns `true` if and
only if the user name is non-empty and accepted by `isValidEmail` and the
password has at least 6 characters (UTF-16 code units, what `password.length`
counts); when it returns `false` for the trimmed user name and the password of
the form, the submit listener takes no step at all, so issues no login request;
and a non-empty password shorter than 6 characters, such as `abc`, gets the
field error `Password must be at least 6 characters`. -/
theorem validateInputs_contract (username password : String) (p : Page) :
    ((validateInputs username password p).1 = true ↔
      username ≠ "" ∧ isValidEmail username = true ∧ 6 ≤ jsLength password) ∧
    (∀ (reply : Dashboard.Reply LoginPayload) (q : Page),
      (validateInputs (Dashboard.jsTrim q.usernameInput) q.passwordInput
        (clearErrors q)).1 = false →
      newEffects q (submit reply q) = []) ∧
    (password ≠ "" → jsLength password < 6 →
      (validateInputs username password p).1 = false ∧
      (validateInputs username password p).2.passwordError =
        "Password must be at least 6 characters" ∧
      (validateInputs username password p).2.passwordErrorShown = true) ∧
    (submit Dashboard.Reply.failure (formPage " user@example.com " "abc")).passwordError =
      "Password must be at least 6 characters" ∧
    newEffects (formPage " user@example.com " "abc")
      (submit Dashboard.Reply.failure (formPage " user@example.com " "abc")) = [] := by
  refine ⟨validateInputs_eq_true_iff username password p, ?_,
    validateInputs_short_password username password p, by decide, by decide⟩
  intro reply q h
  rw [submit_of_invalid reply q h]
  simp [newEffects, validateInputs_trace, clearErrors]

/-- For the user name `user@example.com` and the password `abc` the validation
fails with the error about the length, and the submit listener takes no step. -/
theorem validateInputs_contract_witness :
    ((validateInputs "user@example.com" "abc" (formPage "user@example.com" "abc")).1 = false ∧
      (validateInputs "user@example.com" "abc" (formPage "user@example.com" "abc")).2.passwordError =
        "Password must be at least 6 characters" ∧
      (validateInputs "user@example.com" "abc"
        (formPage "user@example.com" "abc")).2.passwordErrorShown = true) ∧
    newEffects (formPage "user@example.com" "abc")
      (submit Dashboard.Reply.failure (formPage "user@example.com" "abc")) = [] :=
  ⟨(validateInputs_contract "user@example.com" "abc" (formPage "user@example.com" "abc")).2.2.1
      (by decide) (by decide),
   (validateInputs_contract "user@example.com" "abc" (formPage "user@example.com" "abc")).2.1
      Dashboard.Reply.failure (formPage "user@example.com" "abc") (by decide)⟩

end Login

namespace Dashboard

/-! ## Session teardown -/

theorem removeItem_removeItem (s : Storage) (key other : String) :
    ((s.removeItem key).removeItem other).removeItem key = (s.removeItem key).removeItem other := by
  simp only [Storage.removeItem, List.filter_filter]
  apply List.filter_congr
  intro kv _
  by_cases h1 : kv.1 = key <;> by_cases h2 : kv.1 = other <;> simp [h1, h2]

theorem getItem_removeItem_of_ne (s : Storage) (key other : String) (h : key ≠ other) :
    (s.removeItem other).getItem key = s.getItem key := by
  simp only [Storage.getItem, Storage.removeItem, List.find?_filter]
  congr 2
  funext a
  by_cases h2 : a.1 = key
  · simp [h2, h]
  · simp [h2]

/-- C12 as stated fails. On the page `rememberedPage` two calls of
`clearSessionAndRedirect` leave the remembered user name in local storage:
storage is not empty afterwards. -/
theorem clearSessionAndRedirect_keeps_other_items :
    (clearSessionAndRedirect (clearSessionAndRedirect rememberedPage)).localStorage =
      [("rememberedUsername", "u@example.com")] ∧
    (clearSessionAndRedirect (clearSessionAndRedirect rememberedPage)).localStorage ≠ [] := by
  decide

/-- C12, amended. For every initial content of local and session storage, two
calls of `clearSessionAndRedirect` in succession (the function has no failing
step) leave the same storage state as one call; session storage is empty and
local storage holds neither token, while every other local storage item is
kept; each call makes the redirect. -/
theorem clearSessionAndRedirect_idempotent (p : Page) :
    (clearSessionAndRedirect (clearSessionAndRedirect p)).localStorage =
      (clearSessionAndRedirect p).localStorage ∧
    (clearSessionAndRedirect (clearSessionAndRedirect p)).sessionStorage =
      (clearSessionAndRedirect p).sessionStorage ∧
    (clearSessionAndRedirect (clearSessionAndRedirect p)).sessionStorage = [] ∧
    (clearSessionAndRedirect (clearSessionAndRedirect p)).localStorage.getItem "access_token" =
      none ∧
    (clearSessionAndRedirect (clearSessionAndRedirect p)).localStorage.getItem "refresh_token" =
      none ∧
    (∀ key, key ≠ "access_token" → key ≠ "refresh_token" →
      (clearSessionAndRedirect (clearSessionAndRedirect p)).localStorage.getItem key =
        p.localStorage.getItem key) ∧
    newEffects p (clearSessionAndRedirect (clearSessionAndRedirect p)) =
      [Effect.locationReplace "/login", Effect.locationReplace "/login"] := by
  have hlocal : (clearSessionAndRedirect (clearSessionAndRedirect p)).localStorage =
      (clearSessionAndRedirect p).localStorage := by
    simp only [clearSessionAndRedirect, redirectToLogin, Page.emit]
    rw [removeItem_removeItem, removeItem_removeItem]
  have hone : (clearSessionAndRedirect p).localStorage =
      (p.localStorage.removeItem "access_token").removeItem "refresh_token" := rfl
  refine ⟨hlocal, rfl, rfl, ?_, ?_, ?_, ?_⟩
  · rw [hlocal, hone]
    exact getItem_removeItem_of_none _ _ _ (getItem_removeItem _ _)
  · rw [hlocal, hone]
    exact getItem_removeItem _ _
  · intro key h1 h2
    rw [hlocal, hone, getItem_removeItem_of_ne _ _ _ h2, getItem_removeItem_of_ne _ _ _ h1]
  · simp [newEffects, clearSessionAndRedirect, redirectToLogin, Page.emit]

/-- On the page `rememberedPage` the remembered user name is still read after two
calls. -/
theorem clearSessionAndRedirect_idempotent_witness :
    (clearSessionAndRedirect (clearSessionAndRedirect rememberedPage)).localStorage.getItem
      "rememberedUsername" = rememberedPage.localStorage.getItem "rememberedUsername" :=
  (clearSessionAndRedirect_idempotent rememberedPage).2.2.2.2.2.1 "rememberedUsername"
    (by decide) (by decide)

/-! ## Logout -/

/-- C13. Whatever the logout request does (a response with any status, a
transport failure, or no request because no token is stored), `logout` ends
with local storage and session storage empty and with the history-replacing
navigation to `/login` as its last step, after cancelling the revalidation
timer when one was set. -/
theorem logout_teardown (reply : Reply Unit) (p : Page) :
    (logout reply p).localStorage = [] ∧
    (logout reply p).sessionStorage = [] ∧
    (newEffects p (logout reply p)).getLast? = some (Effect.locationReplace "/login") ∧
    (∀ handle, p.sessionCheckInterval = some handle → handle ≠ 0 →
      Effect.clearInterval handle ∈ newEffects p (logout reply p)) ∧
    (truthy (p.localStorage.getItem "access_token") = none →
      ∀ e ∈ newEffects p (logout reply p), isRequest e = false) := by
  unfold logout
  cases ht : truthy (p.localStorage.getItem "access_token") with
  | none =>
    cases hh : truthyHandle p.sessionCheckInterval with
    | none =>
      refine ⟨by simp [Page.emit, Storage.clear, hh], by simp [Page.emit, Storage.clear, hh],
        by simp [newEffects, Page.emit, hh], ?_, ?_⟩
      · intro handle hs h0
        rw [hs] at hh
        simp [truthyHandle, h0] at hh
      · intro _ e he
        simp [newEffects, Page.emit, hh] at he
        subst he
        rfl
    | some handle =>
      refine ⟨by simp [Page.emit, Storage.clear, hh], by simp [Page.emit, Storage.clear, hh],
        by simp [newEffects, Page.emit, hh], ?_, ?_⟩
      · intro handle2 hs h0
        rw [hs] at hh
        simp [truthyHandle, h0] at hh
        subst hh
        simp [newEffects, Page.emit, hs, truthyHandle, h0]
      · intro _ e he
        simp [newEffects, Page.emit, hh] at he
        rcases he with he | he <;> subst he <;> rfl
  | some token =>
    have hhandle : ∀ handle, p.sessionCheckInterval = some handle → handle ≠ 0 →
        truthyHandle p.sessionCheckInterval = some handle := by
      intro handle hs h0
      simp [hs, truthyHandle, h0]
    cases reply with
    | failure =>
      cases hh : truthyHandle p.sessionCheckInterval with
      | none =>
        refine ⟨by simp [Page.emit, Storage.clear, hh], by simp [Page.emit, Storage.clear, hh],
          by simp [newEffects, Page.emit, hh], ?_, by simp⟩
        intro handle hs h0
        rw [hhandle handle hs h0] at hh
        simp at hh
      | some handle =>
        refine ⟨by simp [Page.emit, Storage.clear, hh], by simp [Page.emit, Storage.clear, hh],
          by simp [newEffects, Page.emit, hh], ?_, by simp⟩
        intro handle2 hs h0
        rw [hhandle handle2 hs h0] at hh
        simp at hh
        subst hh
        simp [newEffects, Page.emit, hhandle handle2 hs h0]
    | response status json =>
      cases hh : truthyHandle p.sessionCheckInterval with
      | none =>
        refine ⟨by simp [Page.emit, Storage.clear, hh], by simp [Page.emit, Storage.clear, hh],
          by simp [newEffects, Page.emit, hh], ?_, by simp⟩
        intro handle hs h0
        rw [hhandle handle hs h0] at hh
        simp at hh
      | some handle =>
        refine ⟨by simp [Page.emit, Storage.clear, hh], by simp [Page.emit, Storage.clear, hh],
          by simp [newEffects, Page.emit, hh], ?_, by simp⟩
        intro handle2 hs h0
        rw [hhandle handle2 hs h0] at hh
        simp at hh
        subst hh
        simp [newEffects, Page.emit, hhandle handle2 hs h0]

/-- On the signed-in page, whose timer handle is 1, a failed logout request still
cancels the timer; on the page without token no request is made. -/
theorem logout_teardown_witness :
    Effect.clearInterval 1 ∈ newEffects signedInPage (logout Reply.failure signedInPage) ∧
    ∀ e ∈ newEffects signedOutPage (logout Reply.failure signedOutPage), isRequest e = false :=
  ⟨(logout_teardown Reply.failure signedInPage).2.2.2.1 1 rfl (by decide),
   (logout_teardown Reply.failure signedOutPage).2.2.2.2 (by decide)⟩

end Dashboard

namespace Dashboard

/-! ## The stored result and the selected database -/

theorem validateSession_vars (reply : Reply Unit) (p : Page) :
    (validateSession reply p).2.currentDatabase = p.currentDatabase ∧
    (validateSession reply p).2.queryResults = p.queryResults := by
  unfold validateSession
  cases truthy (p.localStorage.getItem "access_token") with
  | none => exact ⟨rfl, rfl⟩
  | some token =>
    cases reply with
    | failure => exact ⟨rfl, rfl⟩
    | response status json =>
      dsimp only
      split_ifs <;> exact ⟨rfl, rfl⟩

theorem loadDatabaseSchema_vars (database : String) (reply : Reply SchemaPayload) (p : Page) :
    (loadDatabaseSchema database reply p).currentDatabase = p.currentDatabase ∧
    (loadDatabaseSchema database reply p).queryResults = p.queryResults := by
  unfold loadDatabaseSchema
  cases truthy (p.localStorage.getItem "access_token") with
  | none => exact ⟨rfl, rfl⟩
  | some token =>
    cases reply with
    | failure => exact ⟨rfl, rfl⟩
    | response status json =>
      cases json with
      | none =>
        dsimp only
        split_ifs <;> exact ⟨rfl, rfl⟩
      | some data =>
        dsimp only
        split_ifs <;> exact ⟨rfl, rfl⟩

theorem loadDatabaseStats_vars (database : String) (reply : Reply StatsPayload) (p : Page) :
    (loadDatabaseStats database reply p).currentDatabase = p.currentDatabase ∧
    (loadDatabaseStats database reply p).queryResults = p.queryResults := by
  unfold loadDatabaseStats
  cases truthy (p.localStorage.getItem "access_token") with
  | none => exact ⟨rfl, rfl⟩
  | some token =>
    cases reply with
    | failure => exact ⟨rfl, rfl⟩
    | response status json =>
      cases json with
      | none =>
        dsimp only
        split_ifs <;> exact ⟨rfl, rfl⟩
      | some data =>
        dsimp only
        split_ifs <;> exact ⟨rfl, rfl⟩

theorem loadQueryHistory_vars (database : String) (reply : Reply HistoryPayload) (p : Page) :
    (loadQueryHistory database reply p).currentDatabase = p.currentDatabase ∧
    (loadQueryHistory database reply p).queryResults = p.queryResults := by
  unfold loadQueryHistory
  cases truthy (p.localStorage.getItem "access_token") with
  | none => exact ⟨rfl, rfl⟩
  | some token =>
    cases reply with
    | failure => exact ⟨rfl, rfl⟩
    | response status json =>
      cases json with
      | none =>
        dsimp only
        split_ifs <;> exact ⟨rfl, rfl⟩
      | some data =>
        dsimp only
        split_ifs <;> exact ⟨rfl, rfl⟩

theorem foldl_exampleButtons_vars (queries : List String) (p : Page) :
    (queries.foldl
      (fun (q : Page) query => { q with exampleButtons := q.exampleButtons ++ [query] })
      p).currentDatabase = p.currentDatabase ∧
    (queries.foldl
      (fun (q : Page) query => { q with exampleButtons := q.exampleButtons ++ [query] })
      p).queryResults = p.queryResults := by
  induction queries generalizing p with
  | nil => exact ⟨rfl, rfl⟩
  | cons query rest ih =>
    simp only [List.foldl_cons]
    exact ⟨(ih _).1, (ih _).2⟩

theorem showExampleQueries_vars (database : String) (p : Page) :
    (showExampleQueries database p).page.currentDatabase = p.currentDatabase ∧
    (showExampleQueries database p).page.queryResults = p.queryResults := by
  unfold showExampleQueries
  cases exampleQueries database with
  | inherited => exact ⟨rfl, rfl⟩
  | array items =>
    simp only [Completion.page, Page.setDisplay]
    exact foldl_exampleButtons_vars items _
  | undefined => exact ⟨rfl, rfl⟩

theorem handleDatabaseChange_tail (value : String) (net : Network) (p3 : Page) :
    (match showExampleQueries value
        (loadDatabaseStats value net.stats (loadDatabaseSchema value net.schema p3)) with
      | Completion.thrown q error => Completion.thrown q error
      | Completion.normal p6 =>
        Completion.normal (loadQueryHistory value net.history p6)).page.currentDatabase =
      p3.currentDatabase := by
  have h4 := loadDatabaseSchema_vars value net.schema p3
  have h5 := loadDatabaseStats_vars value net.stats (loadDatabaseSchema value net.schema p3)
  have h6 := showExampleQueries_vars value
    (loadDatabaseStats value net.stats (loadDatabaseSchema value net.schema p3))
  cases hex : showExampleQueries value
    (loadDatabaseStats value net.stats (loadDatabaseSchema value net.schema p3)) with
  | thrown q error =>
    rw [hex] at h6
    simp only [Completion.page] at h6 ⊢
    rw [h6.1, h5.1, h4.1]
  | normal p6 =>
    rw [hex] at h6
    simp only [Completion.page] at h6 ⊢
    rw [(loadQueryHistory_vars value net.history p6).1, h6.1, h5.1, h4.1]

/-- After `handleDatabaseChange` either both module variables are what they
were, or `currentDatabase` is the selected value. -/
theorem handleDatabaseChange_vars (value : String) (net : Network) (p : Page) :
    ((handleDatabaseChange value net p).page.currentDatabase = p.currentDatabase ∧
      (handleDatabaseChange value net p).page.queryResults = p.queryResults) ∨
    (handleDatabaseChange value net p).page.currentDatabase = some value := by
  unfold handleDatabaseChange
  rcases hv : validateSession net.validate p with ⟨isValid, p1⟩
  have hvars := validateSession_vars net.validate p
  rw [hv] at hvars
  cases isValid with
  | false => exact Or.inl hvars
  | true =>
    right
    by_cases hempty : (truthy (some value)).isNone = true
    · simp only [Bool.not_true, Bool.false_eq_true, if_false, hempty, if_true]
      rfl
    · simp only [Bool.not_true, Bool.false_eq_true, if_false, hempty]
      exact handleDatabaseChange_tail value net
        { p1 with currentDatabase := some value, generateBtnDisabled := false }

/-- The handler `handleDatabaseChange` keeps a stored result together with a
database name. -/
theorem resultHasDatabase_handleDatabaseChange (value : String) (net : Network) (p : Page)
    (h : resultHasDatabase p) : resultHasDatabase (handleDatabaseChange value net p).page := by
  unfold resultHasDatabase at h ⊢
  intro hq
  rcases handleDatabaseChange_vars value net p with ⟨h1, h2⟩ | h1
  · rw [h1]
    rw [h2] at hq
    exact h hq
  · rw [h1]
    rfl

theorem displayResults_currentDatabase (data : ExecutePayload) (p : Page) :
    (displayResults data p).page.currentDatabase = p.currentDatabase := by
  unfold displayResults
  cases data.data <;> cases truthy data.explanation <;> rfl

theorem generateAndExecuteSQL_currentDatabase (net : Network) (p : Page) :
    (generateAndExecuteSQL net p).currentDatabase = p.currentDatabase := by
  unfold generateAndExecuteSQL
  rcases hv : validateSession net.validate p with ⟨isValid, p1⟩
  have hvars := validateSession_vars net.validate p
  rw [hv] at hvars
  simp only at hvars
  rw [← hvars.1]
  dsimp only
  split_ifs
  · rfl
  · rfl
  · cases truthy p1.currentDatabase with
    | none => rfl
    | some currentDatabase =>
      dsimp only
      cases truthy (p1.localStorage.getItem "access_token") with
      | none => rfl
      | some token =>
        dsimp only
        cases net.execute with
        | failure => rfl
        | response status json =>
          dsimp only
          split_ifs
          · rfl
          · cases json with
            | none => rfl
            | some data =>
              dsimp only
              split_ifs
              · have hd := displayResults_currentDatabase data
                  ({ p1 with generateBtnLoading := true, generateBtnDisabled := true }.emit
                    (Effect.fetch "POST" "/query/execute/" token
                      [("query", jsTrim p1.queryInput), ("database", currentDatabase)]))
                cases hdr : displayResults data
                  ({ p1 with generateBtnLoading := true, generateBtnDisabled := true }.emit
                    (Effect.fetch "POST" "/query/execute/" token
                      [("query", jsTrim p1.queryInput), ("database", currentDatabase)])) with
                | normal q =>
                  rw [hdr] at hd
                  exact hd
                | thrown q error =>
                  rw [hdr] at hd
                  exact hd
              · rfl

theorem generateAndExecuteSQL_queryResults (net : Network) (p : Page) :
    (generateAndExecuteSQL net p).queryResults = p.queryResults ∨
    ∃ database, truthy p.currentDatabase = some database := by
  unfold generateAndExecuteSQL
  rcases hv : validateSession net.validate p with ⟨isValid, p1⟩
  have hvars := validateSession_vars net.validate p
  rw [hv] at hvars
  simp only at hvars
  rw [← hvars.1, ← hvars.2]
  dsimp only
  split_ifs
  · exact Or.inl rfl
  · exact Or.inl rfl
  · cases ht : truthy p1.currentDatabase with
    | none => exact Or.inl rfl
    | some database => exact Or.inr ⟨database, rfl⟩

/-- The handler `generateAndExecuteSQL` keeps a stored result together with a
database name: it stores a result only after finding a database selected. -/
theorem resultHasDatabase_generateAndExecuteSQL (net : Network) (p : Page)
    (h : resultHasDatabase p) : resultHasDatabase (generateAndExecuteSQL net p) := by
  unfold resultHasDatabase at h ⊢
  intro hq
  rw [generateAndExecuteSQL_currentDatabase]
  rcases generateAndExecuteSQL_queryResults net p with h1 | ⟨database, h1⟩
  · rw [h1] at hq
    exact h hq
  · rw [(truthy_eq_some _ _ h1).1]
    rfl

/-! ## CSV export, the handler -/

theorem replaceFirstSpace_append (a b : List Char) (h : ' ' ∉ a) :
    replaceFirstSpace (a ++ ' ' :: b) = a ++ '_' :: b := by
  induction a with
  | nil => simp [replaceFirstSpace]
  | cons x xs ih =>
    have hx : x ≠ ' ' := fun e => h (by simp [e])
    have hxs : ' ' ∉ xs := fun e => h (by simp [e])
    simp [replaceFirstSpace, hx, ih hxs]

theorem replaceFirstSpace_of_no_space (l : List Char) (h : ' ' ∉ l) :
    replaceFirstSpace l = l := by
  induction l with
  | nil => rfl
  | cons x xs ih =>
    have hx : x ≠ ' ' := fun e => h (by simp [e])
    have hxs : ' ' ∉ xs := fun e => h (by simp [e])
    simp [replaceFirstSpace, hx, ih hxs]

/-- C14. When there is no stored result, or the stored result has no data list,
or its data list is empty, `exportToCSV` only shows the warning
`No data to export`: the page is otherwise unchanged and nothing is downloaded.
In every other case, on a page where the stored result comes with a database
name, it ends normally and triggers a download of the CSV text. -/
theorem exportToCSV_guard (toLowerCase : String → String) (now : Nat) (p : Page) :
    ((p.queryResults = none ∨
        ∃ queryResults, p.queryResults = some queryResults ∧
          (queryResults.data = none ∨ queryResults.data = some [])) →
      (exportToCSV toLowerCase now p).threw = false ∧
      newEffects p (exportToCSV toLowerCase now p).page =
        [Effect.toast "No data to export" "warning"]) ∧
    (∀ queryResults data,
      p.queryResults = some queryResults → queryResults.data = some data → data ≠ [] →
      resultHasDatabase p →
      (exportToCSV toLowerCase now p).threw = false ∧
      ∃ fileName,
        Effect.download fileName (csvText queryResults.columns data) ∈
          newEffects p (exportToCSV toLowerCase now p).page) := by
  constructor
  · intro h
    have hrun : exportToCSV toLowerCase now p =
        Completion.normal (showToast "No data to export" "warning" p) := by
      unfold exportToCSV
      rcases h with h | ⟨queryResults, hq, hd | hd⟩
      · simp only [h]
      · simp only [hq, hd]
      · simp only [hq, hd, List.length_nil, if_true]
    rw [hrun]
    exact ⟨rfl, by simp [Completion.page, newEffects, showToast, Page.emit]⟩
  · intro queryResults data hq hd hne hinv
    have hlen : data.length ≠ 0 := fun h => hne (List.length_eq_zero.mp h)
    have hsome : p.currentDatabase.isSome = true := hinv (by rw [hq]; rfl)
    obtain ⟨database, hdb⟩ := Option.isSome_iff_exists.mp hsome
    unfold exportToCSV
    simp only [hq, hd, hdb, hlen, if_false]
    refine ⟨rfl, "query_results_" ++ String.mk (replaceFirstSpace (toLowerCase database).data) ++
      "_" ++ toString now ++ ".csv", ?_⟩
    simp [Completion.page, newEffects, showToast, Page.emit]

/-- On the signed-in page, which holds no result, the export only warns; on the
page `exportPage` it downloads the text of the stored row. -/
theorem exportToCSV_guard_witness :
    ((exportToCSV asciiLowerCase 1700000000000 signedInPage).threw = false ∧
      newEffects signedInPage (exportToCSV asciiLowerCase 1700000000000 signedInPage).page =
        [Effect.toast "No data to export" "warning"]) ∧
    ((exportToCSV asciiLowerCase 1700000000000 exportPage).threw = false ∧
      ∃ fileName,
        Effect.download fileName (csvText obrienPayload.columns [obrienRow]) ∈
          newEffects exportPage (exportToCSV asciiLowerCase 1700000000000 exportPage).page) :=
  ⟨(exportToCSV_guard asciiLowerCase 1700000000000 signedInPage).1 (Or.inl rfl),
   (exportToCSV_guard asciiLowerCase 1700000000000 exportPage).2 obrienPayload [obrienRow]
     rfl rfl (by simp) (fun _ => rfl)⟩

/-- C15. For a selected database name and an export time in epoch milliseconds,
the download of `exportToCSV` is named `query_results_`, then the lower-cased
name with its first space replaced by an underscore, then `_`, the time in
decimal digits and `.csv`; only the first space is replaced: the text after it
is kept as it is, spaces included, and a name without space is kept whole. -/
theorem exportToCSV_fileName (toLowerCase : String → String) (now : Nat) (p : Page)
    (queryResults : ExecutePayload) (data : List Row) (database : String)
    (hq : p.queryResults = some queryResults) (hd : queryResults.data = some data)
    (hne : data ≠ []) (hdb : p.currentDatabase = some database) :
    (∃ csv,
      newEffects p (exportToCSV toLowerCase now p).page =
        [Effect.download
          ("query_results_" ++ String.mk (replaceFirstSpace (toLowerCase database).data) ++ "_" ++
            toString now ++ ".csv") csv,
         Effect.toast "Results exported successfully!" "success"]) ∧
    (∀ before after : List Char, ' ' ∉ before →
      (toLowerCase database).data = before ++ ' ' :: after →
      replaceFirstSpace (toLowerCase database).data = before ++ '_' :: after) ∧
    (' ' ∉ (toLowerCase database).data →
      replaceFirstSpace (toLowerCase database).data = (toLowerCase database).data) := by
  refine ⟨?_, ?_, replaceFirstSpace_of_no_space _⟩
  · have hlen : data.length ≠ 0 := fun h => hne (List.length_eq_zero.mp h)
    unfold exportToCSV
    simp only [hq, hd, hdb, hlen, if_false]
    exact ⟨csvText queryResults.columns data,
      by simp [Completion.page, newEffects, showToast, Page.emit]⟩
  · intro before after hb hsplit
    rw [hsplit]
    exact replaceFirstSpace_append before after hb

/-- For the database name `My Big DB` exported at time 1700000000000 the file is
named `query_results_my_big db_1700000000000.csv`: the second space stays. -/
theorem exportToCSV_fileName_witness :
    (∃ csv,
      newEffects twoSpacesPage (exportToCSV asciiLowerCase 1700000000000 twoSpacesPage).page =
        [Effect.download "query_results_my_big db_1700000000000.csv" csv,
         Effect.toast "Results exported successfully!" "success"]) ∧
    replaceFirstSpace (asciiLowerCase "My Big DB").data = "my_big db".data := by
  have h := exportToCSV_fileName asciiLowerCase 1700000000000 twoSpacesPage obrienPayload
    [obrienRow] "My Big DB" rfl rfl (by simp) rfl
  have hname : "query_results_" ++
      String.mk (replaceFirstSpace (asciiLowerCase "My Big DB").data) ++ "_" ++
      toString 1700000000000 ++ ".csv" = "query_results_my_big db_1700000000000.csv" := by
    decide
  obtain ⟨csv, hcsv⟩ := h.1
  rw [hname] at hcsv
  exact ⟨⟨csv, hcsv⟩, (h.2.1 "my".data "big db".data (by decide) (by decide)).trans (by decide)⟩

/-! ## Time ago -/

/-- C17. For an elapsed time of `seconds` whole seconds, not negative,
`getTimeAgo` reports the floor of `seconds` divided by the length of the largest
unit among year, month, day, hour and minute whose length is strictly less
than `seconds`, followed by that unit, and the number is at least 1; when
`seconds` is at most 60 it reports `seconds` followed by `seconds ago`.  So an
elapsed time of exactly one unit is given in the next smaller unit: 60 seconds
read `60 seconds ago`, 3600 seconds read `60 minutes ago`, a day reads
`24 hours ago`, a month `30 days ago` and a year `12 months ago`. -/
theorem getTimeAgo_units (now date seconds : Int) (hs : seconds = (now - date) / 1000)
    (h0 : 0 ≤ seconds) :
    (∀ unit ∈ timeUnits, unit.1 < seconds →
      (∀ other ∈ timeUnits, other.1 < seconds → other.1 ≤ unit.1) →
      getTimeAgo now date = toString (seconds / unit.1) ++ unit.2 ∧ 1 ≤ seconds / unit.1) ∧
    (seconds ≤ 60 → getTimeAgo now date = toString seconds ++ " seconds ago") ∧
    getTimeAgo 60000 0 = "60 seconds ago" ∧
    getTimeAgo 3600000 0 = "60 minutes ago" ∧
    getTimeAgo 86400000 0 = "24 hours ago" ∧
    getTimeAgo 2592000000 0 = "30 days ago" ∧
    getTimeAgo 31536000000 0 = "12 months ago" := by
  have hrun : getTimeAgo now date = timeAgoOfSeconds seconds := by
    rw [hs]
    rfl
  refine ⟨?_, ?_, by decide, by decide, by decide, by decide, by decide⟩
  · intro unit hunit hlt hmax
    have hyear := hmax (31536000, " years ago") (by simp [timeUnits])
    have hmonth := hmax (2592000, " months ago") (by simp [timeUnits])
    have hday := hmax (86400, " days ago") (by simp [timeUnits])
    have hhour := hmax (3600, " hours ago") (by simp [timeUnits])
    simp only at hyear hmonth hday hhour
    rw [hrun]
    unfold timeAgoOfSeconds
    simp only [timeUnits, List.mem_cons, List.mem_singleton, List.not_mem_nil, or_false] at hunit
    rcases hunit with h | h | h | h | h <;> subst h <;> simp only at hlt hyear hmonth hday hhour ⊢
    · exact ⟨by simp [hlt], by omega⟩
    · have h1 : ¬ seconds > 31536000 := fun h => by have := hyear h; omega
      exact ⟨by simp [h1, hlt], by omega⟩
    · have h1 : ¬ seconds > 31536000 := fun h => by have := hyear h; omega
      have h2 : ¬ seconds > 2592000 := fun h => by have := hmonth h; omega
      exact ⟨by simp [h1, h2, hlt], by omega⟩
    · have h1 : ¬ seconds > 31536000 := fun h => by have := hyear h; omega
      have h2 : ¬ seconds > 2592000 := fun h => by have := hmonth h; omega
      have h3 : ¬ seconds > 86400 := fun h => by have := hday h; omega
      exact ⟨by simp [h1, h2, h3, hlt], by omega⟩
    · have h1 : ¬ seconds > 31536000 := fun h => by have := hyear h; omega
      have h2 : ¬ seconds > 2592000 := fun h => by have := hmonth h; omega
      have h3 : ¬ seconds > 86400 := fun h => by have := hday h; omega
      have h4 : ¬ seconds > 3600 := fun h => by have := hhour h; omega
      exact ⟨by simp [h1, h2, h3, h4, hlt], by omega⟩
  · intro hle
    rw [hrun]
    unfold timeAgoOfSeconds
    have h1 : ¬ seconds > 31536000 := by omega
    have h2 : ¬ seconds > 2592000 := by omega
    have h3 : ¬ seconds > 86400 := by omega
    have h4 : ¬ seconds > 3600 := by omega
    have h5 : ¬ seconds > 60 := by omega
    simp [h1, h2, h3, h4, h5]

/-- An entry created 7200001 milliseconds ago, 7200 whole seconds, reads
`2 hours ago`, and one created 59999 milliseconds ago reads `59 seconds ago`. -/
theorem getTimeAgo_units_witness :
    (getTimeAgo 7200001 0 = toString ((7200 : Int) / 3600) ++ " hours ago" ∧
      1 ≤ (7200 : Int) / 3600) ∧
    getTimeAgo 59999 0 = toString (59 : Int) ++ " seconds ago" :=
  ⟨(getTimeAgo_units 7200001 0 7200 (by decide) (by decide)).1 (3600, " hours ago")
      (by decide) (by decide) (by decide),
   (getTimeAgo_units 59999 0 59 (by decide) (by decide)).2.1 (by decide)⟩

end Dashboard
